import Mathlib

/-!
Verification of the Campersion membership/event-coordination application.

The shallow embedding below translates the data model (`app/models.py`)
and the state-mutating route handlers (`app/camps/routes.py`,
`app/events/routes.py`, `app/api/camps.py`, `app/api/users.py`,
`app/api/admin.py`, `app/auth/decorators.py`) into Lean.  The database
is a record of lists of rows; each handler becomes a function from a
state (plus the acting user and arguments) to `Except String DBState`,
where an `Except.error` models a flash-message/HTTP-error path that
leaves the database unchanged.  Timestamps are passed in as a `Nat`
parameter modelling `datetime.utcnow()`.
-/

namespace Campersion

/-! ### Enumeration values (models.py: UserRole, EventStatus, AssociationStatus,
    CampMemberRole, MemberApprovalMode).  The source stores the string values
    of these enums in the database columns, so we model statuses as strings
    together with the lists of admissible values. -/

namespace UserRole

def GLOBAL_ADMIN : String := "global admin"
def SITE_ADMIN : String := "site admin"
def EVENT_MANAGER : String := "event manager"
def CAMP_MANAGER : String := "camp manager"
def MEMBER : String := "member"

/-- models.py `UserRole.get_role_hierarchy`: roles in order of privilege,
    highest to lowest. -/
def get_role_hierarchy : List String :=
  [GLOBAL_ADMIN, SITE_ADMIN, EVENT_MANAGER, CAMP_MANAGER, MEMBER]

/-- All values of the `UserRole` enum (`[role.value for role in UserRole]`). -/
def values : List String :=
  [GLOBAL_ADMIN, SITE_ADMIN, EVENT_MANAGER, CAMP_MANAGER, MEMBER]

end UserRole

namespace EventStatus

def PENDING : String := "pending"
def APPROVED : String := "approved"
def REJECTED : String := "rejected"
def CANCELLED : String := "cancelled"

/-- All values of the `EventStatus` enum (`[s.value for s in EventStatus]`). -/
def values : List String := [PENDING, APPROVED, REJECTED, CANCELLED]

end EventStatus

namespace AssociationStatus

def PENDING : String := "pending"
def APPROVED : String := "approved"
def REJECTED : String := "rejected"

/-- All values of the `AssociationStatus` enum. -/
def values : List String := [PENDING, APPROVED, REJECTED]

end AssociationStatus

namespace CampMemberRole

def MANAGER : String := "manager"
def MEMBER : String := "member"

def values : List String := [MANAGER, MEMBER]

end CampMemberRole

namespace MemberApprovalMode

def MANAGER_ONLY : String := "manager_only"
def ALL_MEMBERS : String := "all_members"

def values : List String := [MANAGER_ONLY, ALL_MEMBERS]

end MemberApprovalMode

/-! ### Generic list helpers used to model ORM queries.

`listIndex` models Python `list.index` returning `none` where Python
raises `ValueError`; `replaceFirst` models mutating the single row
returned by `query.filter_by(...).first()` and committing. -/

/-- Model of Python `list.index(x)`: index of the first occurrence of `x`,
    or `none` where Python raises `ValueError`. -/
def listIndex (x : String) : List String → Option Nat
  | [] => none
  | y :: ys => if y == x then some 0 else (listIndex x ys).map (· + 1)

/-- Replace the first element satisfying `p` by its image under `f`,
    leaving every other element unchanged.  Models an ORM row update on
    the row returned by `.filter_by(...).first()`. -/
def replaceFirst (p : α → Bool) (f : α → α) : List α → List α
  | [] => []
  | x :: xs => if p x then f x :: xs else x :: replaceFirst p f xs

/-- Model of Python `str.strip()`: drop whitespace from both ends. -/
def pyStrip (s : String) : String :=
  ⟨((s.data.dropWhile Char.isWhitespace).reverse.dropWhile
      Char.isWhitespace).reverse⟩

/-! ### Database rows (models.py).  Only the columns that the verified
    handlers read or write are carried; timestamps are `Nat`. -/

/-- models.py `User`: the `role` column holds a `UserRole` string value
    (default `member`). -/
structure User where
  id : Nat
  role : String
deriving DecidableEq, Repr

/-- models.py `Camp`: camps carry no status column; `member_approval_mode`
    holds a `MemberApprovalMode` string value. -/
structure Camp where
  id : Nat
  name : String
  member_approval_mode : String
  creator_id : Nat
deriving DecidableEq, Repr

/-- models.py `Event`: the `status` column holds an `EventStatus` string value. -/
structure Event where
  id : Nat
  title : String
  status : String
  creator_id : Nat
deriving DecidableEq, Repr

/-- models.py `CampMember`: join row user↔camp with an `AssociationStatus`
    status, a `CampMemberRole` role and the two timestamps. -/
structure CampMember where
  camp_id : Nat
  user_id : Nat
  status : String
  role : String
  requested_at : Nat
  approved_at : Option Nat
deriving DecidableEq, Repr

/-- models.py `CampEventAssociation`: join row camp↔event with an
    `AssociationStatus` status and the two timestamps. -/
structure CampEventAssociation where
  camp_id : Nat
  event_id : Nat
  status : String
  requested_at : Nat
  approved_at : Option Nat
deriving DecidableEq, Repr

/-- The database: one list of rows per modelled table, in insertion order. -/
structure DBState where
  users : List User
  camps : List Camp
  events : List Event
  camp_members : List CampMember
  camp_event_associations : List CampEventAssociation
deriving DecidableEq, Repr

/-- The empty database. -/
def DBState.init : DBState := ⟨[], [], [], [], []⟩

/-- Commit a new `users` table. -/
def DBState.setUsers (s : DBState) (l : List User) : DBState :=
  { s with users := l }

/-- Commit a new `camps` table. -/
def DBState.setCamps (s : DBState) (l : List Camp) : DBState :=
  { s with camps := l }

/-- Commit a new `events` table. -/
def DBState.setEvents (s : DBState) (l : List Event) : DBState :=
  { s with events := l }

/-- Commit a new `camp_members` table. -/
def DBState.setMembers (s : DBState) (l : List CampMember) : DBState :=
  { s with camp_members := l }

/-- Commit a new `camp_event_associations` table. -/
def DBState.setAssocs (s : DBState) (l : List CampEventAssociation) : DBState :=
  { s with camp_event_associations := l }

/-! ### Model-layer helper methods (models.py). -/

/-- models.py `User.has_role_or_higher`: look both roles up in the
    hierarchy with `list.index` (a `ValueError` for a value outside the
    enum is caught and yields `False`) and compare the indices. -/
def User.has_role_or_higher (u : User) (role : String) : Bool :=
  -- hierarchy := UserRole.get_role_hierarchy
  match listIndex u.role UserRole.get_role_hierarchy,
        listIndex role UserRole.get_role_hierarchy with
  | some user_role_index, some check_role_index => user_role_index ≤ check_role_index
  | _, _ => false

/-- models.py `User.is_site_admin_or_higher`. -/
def User.is_site_admin_or_higher (u : User) : Bool :=
  u.has_role_or_higher UserRole.SITE_ADMIN

/-- models.py `CampMember.is_pending`. -/
def CampMember.is_pending (m : CampMember) : Bool :=
  m.status == AssociationStatus.PENDING

/-- models.py `CampMember.is_approved`. -/
def CampMember.is_approved (m : CampMember) : Bool :=
  m.status == AssociationStatus.APPROVED

/-- models.py `CampMember.is_rejected`. -/
def CampMember.is_rejected (m : CampMember) : Bool :=
  m.status == AssociationStatus.REJECTED

/-- models.py `CampMember.is_manager`: manager role and approved status. -/
def CampMember.is_manager (m : CampMember) : Bool :=
  m.role == CampMemberRole.MANAGER && m.is_approved

/-- `CampMember.query.filter_by(camp_id=..., user_id=...).first()`. -/
def memberLookup (s : DBState) (campId userId : Nat) : Option CampMember :=
  s.camp_members.find? (fun m => m.camp_id == campId && m.user_id == userId)

/-- `CampEventAssociation.query.filter_by(camp_id=..., event_id=...).first()`. -/
def assocLookup (s : DBState) (campId eventId : Nat) : Option CampEventAssociation :=
  s.camp_event_associations.find? (fun a => a.camp_id == campId && a.event_id == eventId)

/-- `Camp.query.get(camp_id)`. -/
def campLookup (s : DBState) (campId : Nat) : Option Camp :=
  s.camps.find? (fun c => c.id == campId)

/-- `Event.query.get(event_id)`. -/
def eventLookup (s : DBState) (eventId : Nat) : Option Event :=
  s.events.find? (fun e => e.id == eventId)

/-- `User.query.get(user_id)`. -/
def userLookup (s : DBState) (userId : Nat) : Option User :=
  s.users.find? (fun u => u.id == userId)

/-- models.py `Camp.is_user_member`: approved membership of any role. -/
def Camp.is_user_member (c : Camp) (s : DBState) (userId : Nat) : Bool :=
  (s.camp_members.find? (fun m =>
    m.camp_id == c.id && m.user_id == userId &&
    m.status == AssociationStatus.APPROVED)).isSome

/-- models.py `Camp.is_user_manager`: approved membership with manager role. -/
def Camp.is_user_manager (c : Camp) (s : DBState) (userId : Nat) : Bool :=
  (s.camp_members.find? (fun m =>
    m.camp_id == c.id && m.user_id == userId &&
    m.status == AssociationStatus.APPROVED &&
    m.role == CampMemberRole.MANAGER)).isSome

/-- models.py `Camp.can_user_approve_members`: managers only in
    `manager_only` mode, any approved member in `all_members` mode. -/
def Camp.can_user_approve_members (c : Camp) (s : DBState) (userId : Nat) : Bool :=
  if c.member_approval_mode == MemberApprovalMode.MANAGER_ONLY then
    c.is_user_manager s userId
  else
    c.is_user_member s userId

/-- models.py `User.get_camp_membership`. -/
def User.get_camp_membership (u : User) (s : DBState) (campId : Nat) : Option CampMember :=
  s.camp_members.find? (fun m => m.user_id == u.id && m.camp_id == campId)

/-- models.py `User.is_camp_manager`. -/
def User.is_camp_manager (u : User) (s : DBState) (campId : Nat) : Bool :=
  match u.get_camp_membership s campId with
  | some membership => membership.is_manager
  | none => false

/-- models.py `User.can_approve_camp_members`: site admins always may;
    otherwise defer to the camp settings when the camp exists. -/
def User.can_approve_camp_members (u : User) (s : DBState) (campId : Nat) : Bool :=
  if u.is_site_admin_or_higher then true
  else
    match campLookup s campId with
    | some camp => camp.can_user_approve_members s u.id
    | none => false

/-! ### Route handlers.

Each handler is a function of the acting (logged-in) user, the route
arguments and the current database; `Except.error msg` models every
flash/abort/JSON-error path (all of which leave the database unchanged),
`Except.ok s` the committed new database. -/

/-- camps/routes.py `create_camp`: insert the camp (no status column, no
    approval step) and auto-add the creator as an approved camp manager
    with both timestamps set.  `newCampId` models the fresh primary key
    assigned at `db.session.flush()`. -/
def create_camp (s : DBState) (current_user : User) (newCampId : Nat)
    (name mode : String) (now : Nat) : DBState :=
  let camp : Camp :=
    { id := newCampId, name := name, member_approval_mode := mode,
      creator_id := current_user.id }
  let creator_membership : CampMember :=
    { camp_id := newCampId, user_id := current_user.id,
      status := AssociationStatus.APPROVED, role := CampMemberRole.MANAGER,
      requested_at := now, approved_at := some now }
  { s with camps := s.camps ++ [camp],
           camp_members := s.camp_members ++ [creator_membership] }

/-- camps/routes.py `request_membership` (same logic as api/camps.py):
    an existing row for the pair, whatever its status, yields a message
    and no change; otherwise a pending member-role row is inserted. -/
def request_membership (s : DBState) (current_user : User) (campId : Nat)
    (now : Nat) : Except String DBState :=
  match campLookup s campId with
  | none => Except.error "404 Not Found"
  | some _camp =>
  match memberLookup s campId current_user.id with
  | some existing =>
      if existing.is_approved then
        Except.error "You are already a member of this camp."
      else if existing.is_pending then
        Except.error "You have already requested to join this camp. Awaiting approval."
      else
        Except.error "Your previous request to join this camp was rejected."
  | none =>
      let membership : CampMember :=
        { camp_id := campId, user_id := current_user.id,
          status := AssociationStatus.PENDING, role := CampMemberRole.MEMBER,
          requested_at := now, approved_at := none }
      Except.ok { s with camp_members := s.camp_members ++ [membership] }

/-- camps/routes.py `approve_member` (same logic as api/camps.py):
    permission check, then approve the pending membership, setting
    `approved_at`. -/
def approve_member (s : DBState) (current_user : User) (campId userId : Nat)
    (now : Nat) : Except String DBState :=
  match campLookup s campId with
  | none => Except.error "404 Not Found"
  | some _camp =>
  match userLookup s userId with
  | none => Except.error "404 Not Found"
  | some _user =>
  if !current_user.is_site_admin_or_higher &&
     !current_user.can_approve_camp_members s campId then
    Except.error "403: You do not have permission to approve members for this camp."
  else
    match memberLookup s campId userId with
    | none => Except.error "404 Not Found"
    | some membership =>
        if !membership.is_pending then
          Except.error "Can only approve pending requests."
        else
          Except.ok (s.setMembers
            (replaceFirst (fun m => m.camp_id == campId && m.user_id == userId)
              (fun m => { m with status := AssociationStatus.APPROVED,
                                 approved_at := some now })
              s.camp_members))

/-- camps/routes.py `reject_member` (same logic as api/camps.py). -/
def reject_member (s : DBState) (current_user : User) (campId userId : Nat) :
    Except String DBState :=
  match campLookup s campId with
  | none => Except.error "404 Not Found"
  | some _camp =>
  match userLookup s userId with
  | none => Except.error "404 Not Found"
  | some _user =>
  if !current_user.is_site_admin_or_higher &&
     !current_user.can_approve_camp_members s campId then
    Except.error "403: You do not have permission to reject members for this camp."
  else
    match memberLookup s campId userId with
    | none => Except.error "404 Not Found"
    | some membership =>
        if !membership.is_pending then
          Except.error "Can only reject pending requests."
        else
          Except.ok (s.setMembers
            (replaceFirst (fun m => m.camp_id == campId && m.user_id == userId)
              (fun m => { m with status := AssociationStatus.REJECTED })
              s.camp_members))

/-- camps/routes.py `promote_member` (same logic as api/camps.py). -/
def promote_member (s : DBState) (current_user : User) (campId userId : Nat) :
    Except String DBState :=
  match campLookup s campId with
  | none => Except.error "404 Not Found"
  | some _camp =>
  match userLookup s userId with
  | none => Except.error "404 Not Found"
  | some _user =>
  if !current_user.is_site_admin_or_higher &&
     !current_user.is_camp_manager s campId then
    Except.error "403: Only camp managers can promote members."
  else
    match memberLookup s campId userId with
    | none => Except.error "404 Not Found"
    | some membership =>
        if !membership.is_approved then
          Except.error "Can only promote approved members."
        else if membership.is_manager then
          Except.error "User is already a camp manager."
        else
          Except.ok (s.setMembers
            (replaceFirst (fun m => m.camp_id == campId && m.user_id == userId)
              (fun m => { m with role := CampMemberRole.MANAGER })
              s.camp_members))

/-- camps/routes.py `demote_manager` (same logic as api/camps.py):
    refuse when the target is not an approved manager or is the last
    approved manager of the camp; otherwise set the role to member. -/
def demote_manager (s : DBState) (current_user : User) (campId userId : Nat) :
    Except String DBState :=
  match campLookup s campId with
  | none => Except.error "404 Not Found"
  | some camp =>
  match userLookup s userId with
  | none => Except.error "404 Not Found"
  | some _user =>
  if !current_user.is_site_admin_or_higher &&
     !current_user.is_camp_manager s campId then
    Except.error "403: Only camp managers can demote other managers."
  else
    match memberLookup s campId userId with
    | none => Except.error "404 Not Found"
    | some membership =>
        if !membership.is_manager then
          Except.error "User is not a camp manager."
        else
          -- manager_count: `camp.camp_members.filter_by(status=APPROVED, role=MANAGER).count()`
          if (s.camp_members.filter (fun m =>
              m.camp_id == camp.id &&
              m.status == AssociationStatus.APPROVED &&
              m.role == CampMemberRole.MANAGER)).length ≤ 1 then
            Except.error "Cannot demote the last camp manager. Promote another member first."
          else
            Except.ok (s.setMembers
              (replaceFirst (fun m => m.camp_id == campId && m.user_id == userId)
                (fun m => { m with role := CampMemberRole.MEMBER })
                s.camp_members))

/-- api/users.py `delete_own_account`: delete the user row; the
    `cascade` on `User.camp_memberships` removes every CampMember row of
    the user.  `Camp.creator` and `Event.creator` have no delete cascade
    and their `creator_id` columns are NOT NULL, so flushing the delete
    for a user who created a camp or an event raises `IntegrityError`;
    the handler catches it, rolls back and returns a 500, leaving the
    database unchanged.  Otherwise the delete commits and camps and
    events survive. -/
def delete_own_account (s : DBState) (current_user : User) : Except String DBState :=
  if s.camps.any (fun c => c.creator_id == current_user.id) ||
     s.events.any (fun e => e.creator_id == current_user.id) then
    Except.error "500: Failed to delete account"
  else
    Except.ok
      { s with
        users := s.users.filter (fun u => !(u.id == current_user.id)),
        camp_members := s.camp_members.filter (fun m => !(m.user_id == current_user.id)) }

/-- camps/routes.py `request_event` (same logic as api/camps.py):
    camp managers and site admins may ask an approved event; an existing
    association for the pair, whatever its status, is an error. -/
def request_event (s : DBState) (current_user : User) (campId eventId : Nat)
    (now : Nat) : Except String DBState :=
  match campLookup s campId with
  | none => Except.error "404 Not Found"
  | some _camp =>
  match eventLookup s eventId with
  | none => Except.error "404 Not Found"
  | some event =>
  if !current_user.is_site_admin_or_higher &&
     !current_user.is_camp_manager s campId then
    Except.error "403: Only camp managers can request event associations."
  else if event.status != EventStatus.APPROVED then
    Except.error "Can only request to join approved events."
  else
    match assocLookup s campId eventId with
    | some _ => Except.error "Camp has already requested to join this event."
    | none =>
        let association : CampEventAssociation :=
          { camp_id := campId, event_id := eventId,
            status := AssociationStatus.PENDING,
            requested_at := now, approved_at := none }
        Except.ok (s.setAssocs (s.camp_event_associations ++ [association]))

/-- camps/routes.py `approve_camp` (same logic as api/events.py): the
    event creator or a site admin approves a pending association,
    setting `approved_at`. -/
def approve_camp (s : DBState) (current_user : User) (eventId campId : Nat)
    (now : Nat) : Except String DBState :=
  match eventLookup s eventId with
  | none => Except.error "404 Not Found"
  | some event =>
  match campLookup s campId with
  | none => Except.error "404 Not Found"
  | some _camp =>
  if event.creator_id != current_user.id &&
     !current_user.is_site_admin_or_higher then
    Except.error "403: You can only manage camp requests for your own events."
  else
    match assocLookup s campId eventId with
    | none => Except.error "404 Not Found"
    | some association =>
        if association.status != AssociationStatus.PENDING then
          Except.error "Can only approve pending requests."
        else
          Except.ok (s.setAssocs
            (replaceFirst (fun a => a.camp_id == campId && a.event_id == eventId)
              (fun a => { a with status := AssociationStatus.APPROVED,
                                 approved_at := some now })
              s.camp_event_associations))

/-- camps/routes.py `reject_camp` (same logic as api/events.py). -/
def reject_camp (s : DBState) (current_user : User) (eventId campId : Nat) :
    Except String DBState :=
  match eventLookup s eventId with
  | none => Except.error "404 Not Found"
  | some event =>
  match campLookup s campId with
  | none => Except.error "404 Not Found"
  | some _camp =>
  if event.creator_id != current_user.id &&
     !current_user.is_site_admin_or_higher then
    Except.error "403: You can only manage camp requests for your own events."
  else
    match assocLookup s campId eventId with
    | none => Except.error "404 Not Found"
    | some association =>
        if association.status != AssociationStatus.PENDING then
          Except.error "Can only reject pending requests."
        else
          Except.ok (s.setAssocs
            (replaceFirst (fun a => a.camp_id == campId && a.event_id == eventId)
              (fun a => { a with status := AssociationStatus.REJECTED })
              s.camp_event_associations))

/-- events/routes.py `create_event`: event managers and above create an
    event with pending status.  `newEventId` is the fresh primary key. -/
def create_event (s : DBState) (current_user : User) (newEventId : Nat)
    (title : String) : Except String DBState :=
  if !current_user.has_role_or_higher UserRole.EVENT_MANAGER then
    Except.error "403: You do not have permission to access this page."
  else
    Except.ok (s.setEvents (s.events ++
      [{ id := newEventId, title := title, status := EventStatus.PENDING,
         creator_id := current_user.id }]))

/-- events/routes.py `approve_event` (same logic as api/events.py):
    site admins approve a pending event. -/
def approve_event (s : DBState) (current_user : User) (eventId : Nat) :
    Except String DBState :=
  if !current_user.has_role_or_higher UserRole.SITE_ADMIN then
    Except.error "403: You do not have permission to access this page."
  else
    match eventLookup s eventId with
    | none => Except.error "404 Not Found"
    | some event =>
    if event.status != EventStatus.PENDING then
      Except.error "Can only approve pending events."
    else
      Except.ok (s.setEvents
        (replaceFirst (fun e => e.id == eventId)
          (fun e => { e with status := EventStatus.APPROVED }) s.events))

/-- events/routes.py `reject_event` (same logic as api/events.py):
    site admins reject a pending event. -/
def reject_event (s : DBState) (current_user : User) (eventId : Nat) :
    Except String DBState :=
  if !current_user.has_role_or_higher UserRole.SITE_ADMIN then
    Except.error "403: You do not have permission to access this page."
  else
    match eventLookup s eventId with
    | none => Except.error "404 Not Found"
    | some event =>
    if event.status != EventStatus.PENDING then
      Except.error "Can only reject pending events."
    else
      Except.ok (s.setEvents
        (replaceFirst (fun e => e.id == eventId)
          (fun e => { e with status := EventStatus.REJECTED }) s.events))

/-- events/routes.py `cancel_event` (same logic as api/events.py): the
    creator or a site admin cancels an approved event. -/
def cancel_event (s : DBState) (current_user : User) (eventId : Nat) :
    Except String DBState :=
  match eventLookup s eventId with
  | none => Except.error "404 Not Found"
  | some event =>
  if event.creator_id != current_user.id &&
     !current_user.is_site_admin_or_higher then
    Except.error "403: You can only cancel your own events."
  else if event.status != EventStatus.APPROVED then
    Except.error "Can only cancel approved events."
  else
    Except.ok (s.setEvents
      (replaceFirst (fun e => e.id == eventId)
        (fun e => { e with status := EventStatus.CANCELLED }) s.events))

/-- api/admin.py `change_event_status`: site admins may set any of the
    four `EventStatus` values; the request body is `none` when no JSON
    was sent, otherwise `some raw` with `raw` the (unstripped) `status`
    field, defaulting to the empty string when absent. -/
def change_event_status (s : DBState) (current_user : User) (eventId : Nat)
    (body : Option String) : Except String DBState :=
  if !current_user.has_role_or_higher UserRole.SITE_ADMIN then
    Except.error "403: Insufficient permissions"
  else
    match eventLookup s eventId with
    | none => Except.error "Event not found"
    | some _ =>
        match body with
        | none => Except.error "No data provided"
        | some raw =>
            -- new_status := data.get("status", "").strip()
            if pyStrip raw == "" then
              Except.error "Status is required"
            else if !(EventStatus.values.contains (pyStrip raw)) then
              Except.error "Invalid status. Must be one of: pending, approved, rejected, cancelled"
            else
              Except.ok (s.setEvents
                (replaceFirst (fun e => e.id == eventId)
                  (fun e => { e with status := pyStrip raw }) s.events))

/-- api/admin.py `revoke_association`: site admins turn an approved
    camp-event association back to rejected, clearing `approved_at`. -/
def revoke_association (s : DBState) (current_user : User)
    (campId eventId : Nat) : Except String DBState :=
  if !current_user.has_role_or_higher UserRole.SITE_ADMIN then
    Except.error "403: Insufficient permissions"
  else
    match assocLookup s campId eventId with
    | none => Except.error "Association not found"
    | some association =>
        if association.status != AssociationStatus.APPROVED then
          Except.error "Only approved associations can be revoked"
        else
          Except.ok (s.setAssocs
            (replaceFirst (fun a => a.camp_id == campId && a.event_id == eventId)
              (fun a => { a with status := AssociationStatus.REJECTED,
                                 approved_at := none })
              s.camp_event_associations))

/-- api/admin.py `cancel_association_rejection`: event managers and
    above revert a rejected camp-event association to pending. -/
def cancel_association_rejection (s : DBState) (current_user : User)
    (campId eventId : Nat) : Except String DBState :=
  if !current_user.has_role_or_higher UserRole.EVENT_MANAGER then
    Except.error "403: Insufficient permissions"
  else
    match assocLookup s campId eventId with
    | none => Except.error "Association not found"
    | some association =>
        if association.status != AssociationStatus.REJECTED then
          Except.error "Only rejected associations can have rejection cancelled"
        else
          Except.ok (s.setAssocs
            (replaceFirst (fun a => a.camp_id == campId && a.event_id == eventId)
              (fun a => { a with status := AssociationStatus.PENDING })
              s.camp_event_associations))

/-- auth/routes.py registration: a new account is stored with the
    `role` column default `UserRole.MEMBER`. -/
def register_user (s : DBState) (newUserId : Nat) : DBState :=
  { s with users := s.users ++ [{ id := newUserId, role := UserRole.MEMBER }] }

/-- api/users.py `change_user_role` (same logic as admin/routes.py):
    a global admin sets another account to any valid `UserRole` value
    (`@jwt_required_role(UserRole.GLOBAL_ADMIN)`). -/
def update_user_role (s : DBState) (current_user : User) (userId : Nat)
    (new_role : String) : Except String DBState :=
  if !current_user.has_role_or_higher UserRole.GLOBAL_ADMIN then
    Except.error "403: Insufficient permissions"
  else
    match userLookup s userId with
    | none => Except.error "404 Not Found"
    | some user =>
        if user.id == current_user.id then
          Except.error "403: You cannot change your own role"
        else if !(UserRole.values.contains new_role) then
          Except.error "Invalid role"
        else
          Except.ok (s.setUsers
            (replaceFirst (fun u => u.id == userId)
              (fun u => { u with role := new_role }) s.users))

/-- camps/routes.py `edit_camp` (same guard as api/camps.py
    `update_camp`): the camp creator or a site admin updates camp fields
    (name, settings); the id and the membership table are untouched. -/
def update_camp (s : DBState) (current_user : User) (campId : Nat)
    (name mode : String) : Except String DBState :=
  match campLookup s campId with
  | none => Except.error "404 Not Found"
  | some camp =>
  if camp.creator_id != current_user.id &&
     !current_user.is_site_admin_or_higher then
    Except.error "403: You can only edit your own camps."
  else
    Except.ok (s.setCamps
      (replaceFirst (fun c => c.id == campId)
        (fun c => { c with name := name, member_approval_mode := mode }) s.camps))

/-- auth/decorators.py `require_role_or_higher`: outcome of the access
    check guarding a decorated route. -/
inductive AccessDecision
  | redirect_login
  | forbidden
  | granted
deriving DecidableEq, Repr

/-- auth/decorators.py `require_role_or_higher`: unauthenticated callers
    are redirected to the login page; authenticated callers are let
    through exactly when `has_role_or_higher` holds, and 403-aborted
    otherwise. -/
def require_role_or_higher (role : String) (is_authenticated : Bool)
    (current_user : User) : AccessDecision :=
  if !is_authenticated then
    AccessDecision.redirect_login
  else if !current_user.has_role_or_higher role then
    AccessDecision.forbidden
  else
    AccessDecision.granted

/-! ### The transition system.

A `Step` is one successfully committed run of a state-mutating handler
by some logged-in user.  Primary keys assigned by the database are
fresh.  The Boolean index selects whether the `delete_own_account`
transition is available (`true` gives the full system). -/

/-- One committed handler run.  Error outcomes leave the state unchanged
    and therefore induce no step. -/
inductive Step : Bool → DBState → DBState → Prop
  | register (b : Bool) (s : DBState) (newUserId : Nat)
      (hfresh : ∀ v ∈ s.users, v.id ≠ newUserId) :
      Step b s (register_user s newUserId)
  | update_role (b : Bool) (s : DBState) (u : User) (userId : Nat)
      (new_role : String) (s' : DBState) (hu : u ∈ s.users)
      (h : update_user_role s u userId new_role = Except.ok s') : Step b s s'
  | make_camp (b : Bool) (s : DBState) (u : User) (newCampId : Nat)
      (name mode : String) (now : Nat) (hu : u ∈ s.users)
      (hfresh : ∀ c ∈ s.camps, c.id ≠ newCampId) :
      Step b s (create_camp s u newCampId name mode now)
  | edit_camp (b : Bool) (s : DBState) (u : User) (campId : Nat)
      (name mode : String) (s' : DBState) (hu : u ∈ s.users)
      (h : update_camp s u campId name mode = Except.ok s') : Step b s s'
  | ask_membership (b : Bool) (s : DBState) (u : User) (campId now : Nat)
      (s' : DBState) (hu : u ∈ s.users)
      (h : request_membership s u campId now = Except.ok s') : Step b s s'
  | ok_member (b : Bool) (s : DBState) (u : User) (campId userId now : Nat)
      (s' : DBState) (hu : u ∈ s.users)
      (h : approve_member s u campId userId now = Except.ok s') : Step b s s'
  | no_member (b : Bool) (s : DBState) (u : User) (campId userId : Nat)
      (s' : DBState) (hu : u ∈ s.users)
      (h : reject_member s u campId userId = Except.ok s') : Step b s s'
  | raise_member (b : Bool) (s : DBState) (u : User) (campId userId : Nat)
      (s' : DBState) (hu : u ∈ s.users)
      (h : promote_member s u campId userId = Except.ok s') : Step b s s'
  | lower_manager (b : Bool) (s : DBState) (u : User) (campId userId : Nat)
      (s' : DBState) (hu : u ∈ s.users)
      (h : demote_manager s u campId userId = Except.ok s') : Step b s s'
  | remove_own_account (s : DBState) (u : User) (s' : DBState)
      (hu : u ∈ s.users)
      (h : delete_own_account s u = Except.ok s') : Step true s s'
  | make_event (b : Bool) (s : DBState) (u : User) (newEventId : Nat)
      (title : String) (s' : DBState) (hu : u ∈ s.users)
      (hfresh : ∀ e ∈ s.events, e.id ≠ newEventId)
      (h : create_event s u newEventId title = Except.ok s') : Step b s s'
  | ok_event (b : Bool) (s : DBState) (u : User) (eventId : Nat)
      (s' : DBState) (hu : u ∈ s.users)
      (h : approve_event s u eventId = Except.ok s') : Step b s s'
  | no_event (b : Bool) (s : DBState) (u : User) (eventId : Nat)
      (s' : DBState) (hu : u ∈ s.users)
      (h : reject_event s u eventId = Except.ok s') : Step b s s'
  | drop_event (b : Bool) (s : DBState) (u : User) (eventId : Nat)
      (s' : DBState) (hu : u ∈ s.users)
      (h : cancel_event s u eventId = Except.ok s') : Step b s s'
  | admin_event_status (b : Bool) (s : DBState) (u : User) (eventId : Nat)
      (body : Option String) (s' : DBState) (hu : u ∈ s.users)
      (h : change_event_status s u eventId body = Except.ok s') : Step b s s'
  | ask_event (b : Bool) (s : DBState) (u : User) (campId eventId now : Nat)
      (s' : DBState) (hu : u ∈ s.users)
      (h : request_event s u campId eventId now = Except.ok s') : Step b s s'
  | ok_camp (b : Bool) (s : DBState) (u : User) (eventId campId now : Nat)
      (s' : DBState) (hu : u ∈ s.users)
      (h : approve_camp s u eventId campId now = Except.ok s') : Step b s s'
  | no_camp (b : Bool) (s : DBState) (u : User) (eventId campId : Nat)
      (s' : DBState) (hu : u ∈ s.users)
      (h : reject_camp s u eventId campId = Except.ok s') : Step b s s'
  | admin_revoke (b : Bool) (s : DBState) (u : User) (campId eventId : Nat)
      (s' : DBState) (hu : u ∈ s.users)
      (h : revoke_association s u campId eventId = Except.ok s') : Step b s s'
  | admin_unreject (b : Bool) (s : DBState) (u : User) (campId eventId : Nat)
      (s' : DBState) (hu : u ∈ s.users)
      (h : cancel_association_rejection s u campId eventId = Except.ok s') : Step b s s'

/-- States reachable from the empty database by committed handler runs. -/
inductive Reachable : Bool → DBState → Prop
  | start (b : Bool) : Reachable b DBState.init
  | next (b : Bool) (s s' : DBState) (h : Reachable b s) (hs : Step b s s') :
      Reachable b s'

/-! ### Invariants (spec section 3). -/

/-- Spec: "an approved camp must retain ≥1 manager": every camp row has
    at least one approved manager-role membership. -/
def managerInv (s : DBState) : Prop :=
  ∀ c ∈ s.camps, ∃ m ∈ s.camp_members,
    m.camp_id = c.id ∧ m.status = AssociationStatus.APPROVED ∧
    m.role = CampMemberRole.MANAGER

/-- The unique-constraint key of a `CampMember` row (`uix_camp_user`). -/
def memberKey (m : CampMember) : Nat × Nat := (m.camp_id, m.user_id)

/-- The unique-constraint key of a `CampEventAssociation` row (`uix_camp_event`). -/
def assocKey (a : CampEventAssociation) : Nat × Nat := (a.camp_id, a.event_id)

/-- Spec: "each CampMember/CampEventAssociation pair is unique". -/
def uniqueInv (s : DBState) : Prop :=
  (s.camp_members.map memberKey).Nodup ∧
  (s.camp_event_associations.map assocKey).Nodup

/-- Foreign-key invariant: every membership row points at an existing camp. -/
def memberCampFk (s : DBState) : Prop :=
  ∀ m ∈ s.camp_members, ∃ c ∈ s.camps, c.id = m.camp_id

/-- Spec: "status fields only take values from fixed enums". -/
def statusInv (s : DBState) : Prop :=
  (∀ e ∈ s.events, e.status ∈ EventStatus.values) ∧
  (∀ m ∈ s.camp_members, m.status ∈ AssociationStatus.values) ∧
  (∀ a ∈ s.camp_event_associations, a.status ∈ AssociationStatus.values)

/-! ### Generic lemmas about the query/update helpers. -/

theorem replaceFirst_split {α : Type} {p : α → Bool} {l : List α} {a : α} (f : α → α)
    (h : l.find? p = some a) :
    ∃ l₁ l₂, l = l₁ ++ a :: l₂ ∧ (∀ x ∈ l₁, p x = false) ∧ p a = true ∧
      replaceFirst p f l = l₁ ++ f a :: l₂ := by
  induction l with
  | nil => simp at h
  | cons x xs ih =>
    by_cases hx : p x = true
    · rw [List.find?_cons_of_pos _ hx] at h
      obtain rfl : x = a := by injection h
      exact ⟨[], xs, rfl, by simp, hx, by simp [replaceFirst, hx]⟩
    · rw [List.find?_cons_of_neg _ (by simpa using hx)] at h
      obtain ⟨l₁, l₂, hl, hl₁, hpa, hr⟩ := ih h
      refine ⟨x :: l₁, l₂, by simp [hl], ?_, hpa, ?_⟩
      · intro y hy
        rcases List.mem_cons.mp hy with rfl | hy
        · simpa using hx
        · exact hl₁ y hy
      · simp [replaceFirst, hx, hr]

theorem replaceFirst_eq_of_find_none {α : Type} {p : α → Bool} (f : α → α)
    {l : List α} (h : l.find? p = none) : replaceFirst p f l = l := by
  induction l with
  | nil => rfl
  | cons x xs ih =>
    rw [List.find?_eq_none] at h
    have hx : p x = false := by simpa using h x (List.mem_cons_self x xs)
    have hxs : xs.find? p = none := by
      rw [List.find?_eq_none]
      exact fun y hy => h y (List.mem_cons_of_mem x hy)
    simp [replaceFirst, hx, ih hxs]

theorem replaceFirst_map_eq {α β : Type} (p : α → Bool) (f : α → α) (g : α → β)
    (l : List α) (hg : ∀ x, p x = true → g (f x) = g x) :
    (replaceFirst p f l).map g = l.map g := by
  induction l with
  | nil => rfl
  | cons x xs ih =>
    by_cases hx : p x = true
    · simp [replaceFirst, hx, hg x hx]
    · simp [replaceFirst, hx, ih]

theorem mem_replaceFirst {α : Type} {p : α → Bool} {f : α → α} {l : List α} {y : α}
    (hy : y ∈ replaceFirst p f l) : y ∈ l ∨ ∃ x ∈ l, p x = true ∧ y = f x := by
  induction l with
  | nil => simp [replaceFirst] at hy
  | cons x xs ih =>
    by_cases hx : p x = true
    · simp only [replaceFirst, if_pos hx] at hy
      rcases List.mem_cons.mp hy with rfl | hy
      · exact Or.inr ⟨x, List.mem_cons_self x xs, hx, rfl⟩
      · exact Or.inl (List.mem_cons_of_mem x hy)
    · simp only [replaceFirst, if_neg hx] at hy
      rcases List.mem_cons.mp hy with rfl | hy
      · exact Or.inl (List.mem_cons_self y xs)
      · rcases ih hy with hy' | ⟨z, hz, hpz, hyz⟩
        · exact Or.inl (List.mem_cons_of_mem x hy')
        · exact Or.inr ⟨z, List.mem_cons_of_mem x hz, hpz, hyz⟩

theorem find?_replaceFirst_disjoint {α : Type} (p q : α → Bool) (f : α → α)
    (hf : ∀ x, q (f x) = q x) (hpq : ∀ x, p x = true → q x = false)
    (l : List α) : (replaceFirst p f l).find? q = l.find? q := by
  induction l with
  | nil => rfl
  | cons x xs ih =>
    by_cases hx : p x = true
    · have hqx : q x = false := hpq x hx
      have hqfx : q (f x) = false := by rw [hf]; exact hqx
      simp only [replaceFirst, if_pos hx]
      rw [List.find?_cons_of_neg _ (by simp [hqfx]),
          List.find?_cons_of_neg _ (by simp [hqx])]
    · simp only [replaceFirst, if_neg hx]
      by_cases hq : q x = true
      · rw [List.find?_cons_of_pos _ hq, List.find?_cons_of_pos _ hq]
      · rw [List.find?_cons_of_neg _ (by simpa using hq),
            List.find?_cons_of_neg _ (by simpa using hq), ih]

theorem find?_filter_comm {α : Type} (q r : α → Bool)
    (h : ∀ x, q x = true → r x = true) (l : List α) :
    (l.filter r).find? q = l.find? q := by
  induction l with
  | nil => rfl
  | cons x xs ih =>
    by_cases hr : r x = true
    · rw [List.filter_cons_of_pos hr]
      by_cases hq : q x = true
      · rw [List.find?_cons_of_pos _ hq, List.find?_cons_of_pos _ hq]
      · rw [List.find?_cons_of_neg _ (by simpa using hq),
            List.find?_cons_of_neg _ (by simpa using hq), ih]
    · have hq : q x = false := by
        cases hqx : q x with
        | false => rfl
        | true => exact absurd (h x hqx) (by simpa using hr)
      rw [List.filter_cons_of_neg (by simpa using hr),
          List.find?_cons_of_neg _ (by simp [hq]), ih]

theorem nodup_append_singleton {α : Type} (l : List α) (a : α) :
    (l ++ [a]).Nodup ↔ l.Nodup ∧ a ∉ l := by
  rw [List.nodup_append]
  constructor
  · rintro ⟨h₁, _, h₃⟩
    exact ⟨h₁, fun ha => h₃ ha (List.mem_singleton_self a)⟩
  · rintro ⟨h₁, h₂⟩
    refine ⟨h₁, List.nodup_singleton a, ?_⟩
    intro x hx hxa
    rcases List.mem_singleton.mp hxa with rfl
    exact h₂ hx

/-! ### Inversion lemmas: what a committed (`Except.ok`) handler run
    entails about the prior state and the new state. -/

theorem update_user_role_ok {s : DBState} {u : User} {userId : Nat}
    {new_role : String} {s' : DBState}
    (h : update_user_role s u userId new_role = Except.ok s') :
    ∃ l, s' = s.setUsers l := by
  unfold update_user_role at h
  repeat' split at h
  all_goals try exact Except.noConfusion h
  injection h with h'
  exact ⟨_, h'.symm⟩

theorem update_camp_ok {s : DBState} {u : User} {campId : Nat}
    {name mode : String} {s' : DBState}
    (h : update_camp s u campId name mode = Except.ok s') :
    s' = s.setCamps (replaceFirst (fun c => c.id == campId)
      (fun c => { c with name := name, member_approval_mode := mode })
      s.camps) := by
  unfold update_camp at h
  repeat' split at h
  all_goals try exact Except.noConfusion h
  injection h with h'
  exact h'.symm

theorem delete_own_account_ok {s : DBState} {u : User} {s' : DBState}
    (h : delete_own_account s u = Except.ok s') :
    s' = { s with
      users := s.users.filter (fun v => !(v.id == u.id)),
      camp_members := s.camp_members.filter (fun m => !(m.user_id == u.id)) } := by
  unfold delete_own_account at h
  split at h
  · exact Except.noConfusion h
  · injection h with h'
    exact h'.symm

theorem request_membership_ok {s : DBState} {u : User} {campId now : Nat}
    {s' : DBState}
    (h : request_membership s u campId now = Except.ok s') :
    (∃ c, campLookup s campId = some c) ∧
    memberLookup s campId u.id = none ∧
    s' = s.setMembers (s.camp_members ++
      [{ camp_id := campId, user_id := u.id, status := AssociationStatus.PENDING,
         role := CampMemberRole.MEMBER, requested_at := now, approved_at := none }]) := by
  unfold request_membership at h
  repeat' split at h
  all_goals try exact Except.noConfusion h
  rename_i x1 camp hc x2 hm
  refine ⟨⟨camp, hc⟩, hm, ?_⟩
  injection h with h'
  exact h'.symm

theorem approve_member_ok {s : DBState} {u : User} {campId userId now : Nat}
    {s' : DBState}
    (h : approve_member s u campId userId now = Except.ok s') :
    ∃ membership, memberLookup s campId userId = some membership ∧
      membership.is_pending = true ∧
      s' = s.setMembers (replaceFirst
        (fun m => m.camp_id == campId && m.user_id == userId)
        (fun m => { m with status := AssociationStatus.APPROVED,
                           approved_at := some now })
        s.camp_members) := by
  unfold approve_member at h
  repeat' split at h
  all_goals try exact Except.noConfusion h
  rename_i x1 c1 hc x2 u1 hu1 hperm x3 membership hm hpend
  refine ⟨membership, hm, by simpa using hpend, ?_⟩
  injection h with h'
  exact h'.symm

theorem reject_member_ok {s : DBState} {u : User} {campId userId : Nat}
    {s' : DBState}
    (h : reject_member s u campId userId = Except.ok s') :
    ∃ membership, memberLookup s campId userId = some membership ∧
      membership.is_pending = true ∧
      s' = s.setMembers (replaceFirst
        (fun m => m.camp_id == campId && m.user_id == userId)
        (fun m => { m with status := AssociationStatus.REJECTED })
        s.camp_members) := by
  unfold reject_member at h
  repeat' split at h
  all_goals try exact Except.noConfusion h
  rename_i x1 c1 hc x2 u1 hu1 hperm x3 membership hm hpend
  refine ⟨membership, hm, by simpa using hpend, ?_⟩
  injection h with h'
  exact h'.symm

theorem promote_member_ok {s : DBState} {u : User} {campId userId : Nat}
    {s' : DBState}
    (h : promote_member s u campId userId = Except.ok s') :
    ∃ membership, memberLookup s campId userId = some membership ∧
      membership.is_approved = true ∧
      membership.is_manager = false ∧
      s' = s.setMembers (replaceFirst
        (fun m => m.camp_id == campId && m.user_id == userId)
        (fun m => { m with role := CampMemberRole.MANAGER })
        s.camp_members) := by
  unfold promote_member at h
  repeat' split at h
  all_goals try exact Except.noConfusion h
  rename_i x1 c1 hc x2 u1 hu1 hperm x3 membership hm happr hmgr
  refine ⟨membership, hm, by simpa using happr, by simpa using hmgr, ?_⟩
  injection h with h'
  exact h'.symm

theorem demote_manager_ok {s : DBState} {u : User} {campId userId : Nat}
    {s' : DBState}
    (h : demote_manager s u campId userId = Except.ok s') :
    ∃ camp membership, campLookup s campId = some camp ∧
      memberLookup s campId userId = some membership ∧
      membership.is_manager = true ∧
      2 ≤ (s.camp_members.filter (fun m =>
        m.camp_id == camp.id &&
        m.status == AssociationStatus.APPROVED &&
        m.role == CampMemberRole.MANAGER)).length ∧
      s' = s.setMembers (replaceFirst
        (fun m => m.camp_id == campId && m.user_id == userId)
        (fun m => { m with role := CampMemberRole.MEMBER })
        s.camp_members) := by
  unfold demote_manager at h
  repeat' split at h
  all_goals try exact Except.noConfusion h
  rename_i x1 camp hc x2 u1 hu1 hperm x3 membership hm hmgr hcount
  refine ⟨camp, membership, hc, hm, by simpa using hmgr, by omega, ?_⟩
  injection h with h'
  exact h'.symm

theorem request_event_ok {s : DBState} {u : User} {campId eventId now : Nat}
    {s' : DBState}
    (h : request_event s u campId eventId now = Except.ok s') :
    (∃ c, campLookup s campId = some c) ∧
    (∃ e, eventLookup s eventId = some e ∧ e.status = EventStatus.APPROVED) ∧
    assocLookup s campId eventId = none ∧
    s' = s.setAssocs (s.camp_event_associations ++
      [{ camp_id := campId, event_id := eventId,
         status := AssociationStatus.PENDING,
         requested_at := now, approved_at := none }]) := by
  unfold request_event at h
  repeat' split at h
  all_goals try exact Except.noConfusion h
  rename_i x1 camp hc x2 event he hperm hstat x3 hassoc
  refine ⟨⟨camp, hc⟩, ⟨event, he, ?_⟩, hassoc, ?_⟩
  · have hs : (event.status != EventStatus.APPROVED) = false := by simpa using hstat
    simpa [bne] using hs
  · injection h with h'
    exact h'.symm

theorem approve_camp_ok {s : DBState} {u : User} {eventId campId now : Nat}
    {s' : DBState}
    (h : approve_camp s u eventId campId now = Except.ok s') :
    ∃ event association,
      eventLookup s eventId = some event ∧
      (event.creator_id = u.id ∨ u.is_site_admin_or_higher = true) ∧
      assocLookup s campId eventId = some association ∧
      association.status = AssociationStatus.PENDING ∧
      s' = s.setAssocs (replaceFirst
        (fun a => a.camp_id == campId && a.event_id == eventId)
        (fun a => { a with status := AssociationStatus.APPROVED,
                           approved_at := some now })
        s.camp_event_associations) := by
  unfold approve_camp at h
  repeat' split at h
  all_goals try exact Except.noConfusion h
  rename_i x1 event he x2 camp hc hperm x3 association ha hstat
  refine ⟨event, association, he, ?_, ha, ?_, ?_⟩
  · cases hs : u.is_site_admin_or_higher with
    | true => exact Or.inr rfl
    | false =>
        left
        by_contra hne
        exact hperm (by simp [bne, hne, hs])
  · have hs : (association.status != AssociationStatus.PENDING) = false := by
      simpa using hstat
    simpa [bne] using hs
  · injection h with h'
    exact h'.symm

theorem reject_camp_ok {s : DBState} {u : User} {eventId campId : Nat}
    {s' : DBState}
    (h : reject_camp s u eventId campId = Except.ok s') :
    ∃ event association,
      eventLookup s eventId = some event ∧
      (event.creator_id = u.id ∨ u.is_site_admin_or_higher = true) ∧
      assocLookup s campId eventId = some association ∧
      association.status = AssociationStatus.PENDING ∧
      s' = s.setAssocs (replaceFirst
        (fun a => a.camp_id == campId && a.event_id == eventId)
        (fun a => { a with status := AssociationStatus.REJECTED })
        s.camp_event_associations) := by
  unfold reject_camp at h
  repeat' split at h
  all_goals try exact Except.noConfusion h
  rename_i x1 event he x2 camp hc hperm x3 association ha hstat
  refine ⟨event, association, he, ?_, ha, ?_, ?_⟩
  · cases hs : u.is_site_admin_or_higher with
    | true => exact Or.inr rfl
    | false =>
        left
        by_contra hne
        exact hperm (by simp [bne, hne, hs])
  · have hs : (association.status != AssociationStatus.PENDING) = false := by
      simpa using hstat
    simpa [bne] using hs
  · injection h with h'
    exact h'.symm

theorem create_event_ok {s : DBState} {u : User} {newEventId : Nat}
    {title : String} {s' : DBState}
    (h : create_event s u newEventId title = Except.ok s') :
    u.has_role_or_higher UserRole.EVENT_MANAGER = true ∧
    s' = s.setEvents (s.events ++
      [{ id := newEventId, title := title, status := EventStatus.PENDING,
         creator_id := u.id }]) := by
  unfold create_event at h
  split at h
  · exact Except.noConfusion h
  · rename_i hrole
    refine ⟨by simpa using hrole, ?_⟩
    injection h with h'
    exact h'.symm

theorem approve_event_ok {s : DBState} {u : User} {eventId : Nat} {s' : DBState}
    (h : approve_event s u eventId = Except.ok s') :
    u.has_role_or_higher UserRole.SITE_ADMIN = true ∧
    (∃ e, eventLookup s eventId = some e ∧ e.status = EventStatus.PENDING) ∧
    s' = s.setEvents (replaceFirst (fun e => e.id == eventId)
      (fun e => { e with status := EventStatus.APPROVED }) s.events) := by
  unfold approve_event at h
  repeat' split at h
  all_goals try exact Except.noConfusion h
  rename_i hrole x1 event he hstat
  refine ⟨by simpa using hrole, ⟨event, he, ?_⟩, ?_⟩
  · have hs : (event.status != EventStatus.PENDING) = false := by simpa using hstat
    simpa [bne] using hs
  · injection h with h'
    exact h'.symm

theorem reject_event_ok {s : DBState} {u : User} {eventId : Nat} {s' : DBState}
    (h : reject_event s u eventId = Except.ok s') :
    u.has_role_or_higher UserRole.SITE_ADMIN = true ∧
    (∃ e, eventLookup s eventId = some e ∧ e.status = EventStatus.PENDING) ∧
    s' = s.setEvents (replaceFirst (fun e => e.id == eventId)
      (fun e => { e with status := EventStatus.REJECTED }) s.events) := by
  unfold reject_event at h
  repeat' split at h
  all_goals try exact Except.noConfusion h
  rename_i hrole x1 event he hstat
  refine ⟨by simpa using hrole, ⟨event, he, ?_⟩, ?_⟩
  · have hs : (event.status != EventStatus.PENDING) = false := by simpa using hstat
    simpa [bne] using hs
  · injection h with h'
    exact h'.symm

theorem cancel_event_ok {s : DBState} {u : User} {eventId : Nat} {s' : DBState}
    (h : cancel_event s u eventId = Except.ok s') :
    (∃ e, eventLookup s eventId = some e ∧
      (e.creator_id = u.id ∨ u.is_site_admin_or_higher = true) ∧
      e.status = EventStatus.APPROVED) ∧
    s' = s.setEvents (replaceFirst (fun e => e.id == eventId)
      (fun e => { e with status := EventStatus.CANCELLED }) s.events) := by
  unfold cancel_event at h
  repeat' split at h
  all_goals try exact Except.noConfusion h
  rename_i x1 event he hperm hstat
  refine ⟨⟨event, he, ?_, ?_⟩, ?_⟩
  · cases hs : u.is_site_admin_or_higher with
    | true => exact Or.inr rfl
    | false =>
        left
        by_contra hne
        exact hperm (by simp [bne, hne, hs])
  · have hs : (event.status != EventStatus.APPROVED) = false := by simpa using hstat
    simpa [bne] using hs
  · injection h with h'
    exact h'.symm

theorem change_event_status_ok {s : DBState} {u : User} {eventId : Nat}
    {body : Option String} {s' : DBState}
    (h : change_event_status s u eventId body = Except.ok s') :
    u.has_role_or_higher UserRole.SITE_ADMIN = true ∧
    (∃ e, eventLookup s eventId = some e) ∧
    ∃ raw, body = some raw ∧ pyStrip raw ∈ EventStatus.values ∧
      s' = s.setEvents (replaceFirst (fun e => e.id == eventId)
        (fun e => { e with status := pyStrip raw }) s.events) := by
  unfold change_event_status at h
  repeat' split at h
  all_goals try exact Except.noConfusion h
  rename_i hrole x1 event he body0 raw hne hmem
  refine ⟨by simpa using hrole, ⟨event, he⟩, raw, rfl, by simpa using hmem, ?_⟩
  injection h with h'
  exact h'.symm

theorem revoke_association_ok {s : DBState} {u : User} {campId eventId : Nat}
    {s' : DBState}
    (h : revoke_association s u campId eventId = Except.ok s') :
    ∃ association, assocLookup s campId eventId = some association ∧
      association.status = AssociationStatus.APPROVED ∧
      s' = s.setAssocs (replaceFirst
        (fun a => a.camp_id == campId && a.event_id == eventId)
        (fun a => { a with status := AssociationStatus.REJECTED,
                           approved_at := none })
        s.camp_event_associations) := by
  unfold revoke_association at h
  repeat' split at h
  all_goals try exact Except.noConfusion h
  rename_i hrole x1 association ha hstat
  refine ⟨association, ha, ?_, ?_⟩
  · have hs : (association.status != AssociationStatus.APPROVED) = false := by
      simpa using hstat
    simpa [bne] using hs
  · injection h with h'
    exact h'.symm

theorem cancel_association_rejection_ok {s : DBState} {u : User}
    {campId eventId : Nat} {s' : DBState}
    (h : cancel_association_rejection s u campId eventId = Except.ok s') :
    ∃ association, assocLookup s campId eventId = some association ∧
      association.status = AssociationStatus.REJECTED ∧
      s' = s.setAssocs (replaceFirst
        (fun a => a.camp_id == campId && a.event_id == eventId)
        (fun a => { a with status := AssociationStatus.PENDING })
        s.camp_event_associations) := by
  unfold cancel_association_rejection at h
  repeat' split at h
  all_goals try exact Except.noConfusion h
  rename_i hrole x1 association ha hstat
  refine ⟨association, ha, ?_, ?_⟩
  · have hs : (association.status != AssociationStatus.REJECTED) = false := by
      simpa using hstat
    simpa [bne] using hs
  · injection h with h'
    exact h'.symm

/-! ### Invariant preservation. -/

theorem statusInv_preserved {b : Bool} {s s' : DBState}
    (hs : Step b s s') (hinv : statusInv s) : statusInv s' := by
  obtain ⟨hev, hmem, hass⟩ := hinv
  cases hs with
  | register b s newUserId hfresh =>
      exact ⟨hev, hmem, hass⟩
  | update_role b s u userId new_role s' hu h =>
      obtain ⟨l, rfl⟩ := update_user_role_ok h
      exact ⟨hev, hmem, hass⟩
  | make_camp b s u newCampId name mode now hu hfresh =>
      refine ⟨hev, ?_, hass⟩
      intro m hm
      rcases List.mem_append.mp hm with h1 | h1
      · exact hmem m h1
      · rcases List.mem_singleton.mp h1 with rfl
        exact (by decide : AssociationStatus.APPROVED ∈ AssociationStatus.values)
  | edit_camp b s u campId name mode s' hu h =>
      rcases update_camp_ok h with rfl
      exact ⟨hev, hmem, hass⟩
  | ask_membership b s u campId now s' hu h =>
      obtain ⟨-, -, rfl⟩ := request_membership_ok h
      refine ⟨hev, ?_, hass⟩
      intro m hm
      rcases List.mem_append.mp hm with h1 | h1
      · exact hmem m h1
      · rcases List.mem_singleton.mp h1 with rfl
        exact (by decide : AssociationStatus.PENDING ∈ AssociationStatus.values)
  | ok_member b s u campId userId now s' hu h =>
      obtain ⟨m0, hm0, hp, rfl⟩ := approve_member_ok h
      refine ⟨hev, ?_, hass⟩
      intro m hm
      rcases mem_replaceFirst hm with h1 | ⟨x, hx, hpx, rfl⟩
      · exact hmem m h1
      · exact (by decide : AssociationStatus.APPROVED ∈ AssociationStatus.values)
  | no_member b s u campId userId s' hu h =>
      obtain ⟨m0, hm0, hp, rfl⟩ := reject_member_ok h
      refine ⟨hev, ?_, hass⟩
      intro m hm
      rcases mem_replaceFirst hm with h1 | ⟨x, hx, hpx, rfl⟩
      · exact hmem m h1
      · exact (by decide : AssociationStatus.REJECTED ∈ AssociationStatus.values)
  | raise_member b s u campId userId s' hu h =>
      obtain ⟨m0, hm0, ha, hg, rfl⟩ := promote_member_ok h
      refine ⟨hev, ?_, hass⟩
      intro m hm
      rcases mem_replaceFirst hm with h1 | ⟨x, hx, hpx, rfl⟩
      · exact hmem m h1
      · exact hmem x hx
  | lower_manager b s u campId userId s' hu h =>
      obtain ⟨camp, m0, hc, hm0, hg, hn, rfl⟩ := demote_manager_ok h
      refine ⟨hev, ?_, hass⟩
      intro m hm
      rcases mem_replaceFirst hm with h1 | ⟨x, hx, hpx, rfl⟩
      · exact hmem m h1
      · exact hmem x hx
  | remove_own_account s u s' hu h =>
      rcases delete_own_account_ok h with rfl
      refine ⟨hev, ?_, hass⟩
      intro m hm
      exact hmem m (List.mem_of_mem_filter hm)
  | make_event b s u newEventId title s' hu hfresh h =>
      obtain ⟨-, rfl⟩ := create_event_ok h
      refine ⟨?_, hmem, hass⟩
      intro e he
      rcases List.mem_append.mp he with h1 | h1
      · exact hev e h1
      · rcases List.mem_singleton.mp h1 with rfl
        exact (by decide : EventStatus.PENDING ∈ EventStatus.values)
  | ok_event b s u eventId s' hu h =>
      obtain ⟨-, -, rfl⟩ := approve_event_ok h
      refine ⟨?_, hmem, hass⟩
      intro e he
      rcases mem_replaceFirst he with h1 | ⟨x, hx, hpx, rfl⟩
      · exact hev e h1
      · exact (by decide : EventStatus.APPROVED ∈ EventStatus.values)
  | no_event b s u eventId s' hu h =>
      obtain ⟨-, -, rfl⟩ := reject_event_ok h
      refine ⟨?_, hmem, hass⟩
      intro e he
      rcases mem_replaceFirst he with h1 | ⟨x, hx, hpx, rfl⟩
      · exact hev e h1
      · exact (by decide : EventStatus.REJECTED ∈ EventStatus.values)
  | drop_event b s u eventId s' hu h =>
      obtain ⟨-, rfl⟩ := cancel_event_ok h
      refine ⟨?_, hmem, hass⟩
      intro e he
      rcases mem_replaceFirst he with h1 | ⟨x, hx, hpx, rfl⟩
      · exact hev e h1
      · exact (by decide : EventStatus.CANCELLED ∈ EventStatus.values)
  | admin_event_status b s u eventId body s' hu h =>
      obtain ⟨-, -, raw, hbody, hval, rfl⟩ := change_event_status_ok h
      refine ⟨?_, hmem, hass⟩
      intro e he
      rcases mem_replaceFirst he with h1 | ⟨x, hx, hpx, rfl⟩
      · exact hev e h1
      · exact hval
  | ask_event b s u campId eventId now s' hu h =>
      obtain ⟨-, -, -, rfl⟩ := request_event_ok h
      refine ⟨hev, hmem, ?_⟩
      intro a ha
      rcases List.mem_append.mp ha with h1 | h1
      · exact hass a h1
      · rcases List.mem_singleton.mp h1 with rfl
        exact (by decide : AssociationStatus.PENDING ∈ AssociationStatus.values)
  | ok_camp b s u eventId campId now s' hu h =>
      obtain ⟨e0, a0, he0, hp0, ha0, hst0, rfl⟩ := approve_camp_ok h
      refine ⟨hev, hmem, ?_⟩
      intro a ha
      rcases mem_replaceFirst ha with h1 | ⟨x, hx, hpx, rfl⟩
      · exact hass a h1
      · exact (by decide : AssociationStatus.APPROVED ∈ AssociationStatus.values)
  | no_camp b s u eventId campId s' hu h =>
      obtain ⟨e0, a0, he0, hp0, ha0, hst0, rfl⟩ := reject_camp_ok h
      refine ⟨hev, hmem, ?_⟩
      intro a ha
      rcases mem_replaceFirst ha with h1 | ⟨x, hx, hpx, rfl⟩
      · exact hass a h1
      · exact (by decide : AssociationStatus.REJECTED ∈ AssociationStatus.values)
  | admin_revoke b s u campId eventId s' hu h =>
      obtain ⟨a0, ha0, hst0, rfl⟩ := revoke_association_ok h
      refine ⟨hev, hmem, ?_⟩
      intro a ha
      rcases mem_replaceFirst ha with h1 | ⟨x, hx, hpx, rfl⟩
      · exact hass a h1
      · exact (by decide : AssociationStatus.REJECTED ∈ AssociationStatus.values)
  | admin_unreject b s u campId eventId s' hu h =>
      obtain ⟨a0, ha0, hst0, rfl⟩ := cancel_association_rejection_ok h
      refine ⟨hev, hmem, ?_⟩
      intro a ha
      rcases mem_replaceFirst ha with h1 | ⟨x, hx, hpx, rfl⟩
      · exact hass a h1
      · exact (by decide : AssociationStatus.PENDING ∈ AssociationStatus.values)

theorem fk_unique_preserved {b : Bool} {s s' : DBState}
    (hs : Step b s s') (hfk : memberCampFk s) (hun : uniqueInv s) :
    memberCampFk s' ∧ uniqueInv s' := by
  obtain ⟨hunm, huna⟩ := hun
  cases hs with
  | register b s newUserId hfresh =>
      exact ⟨hfk, hunm, huna⟩
  | update_role b s u userId new_role s' hu h =>
      obtain ⟨l, rfl⟩ := update_user_role_ok h
      exact ⟨hfk, hunm, huna⟩
  | make_camp b s u newCampId name mode now hu hfresh =>
      refine ⟨?_, ?_, huna⟩
      · intro m hm
        rcases List.mem_append.mp hm with h1 | h1
        · obtain ⟨c, hc, hcid⟩ := hfk m h1
          exact ⟨c, List.mem_append.mpr (Or.inl hc), hcid⟩
        · rcases List.mem_singleton.mp h1 with rfl
          exact ⟨_, List.mem_append.mpr (Or.inr (List.mem_singleton_self _)), rfl⟩
      · show ((s.camp_members ++ [_]).map memberKey).Nodup
        rw [List.map_append, List.map_singleton, nodup_append_singleton]
        refine ⟨hunm, ?_⟩
        intro hin
        rcases List.mem_map.mp hin with ⟨x, hx, hkey⟩
        obtain ⟨c, hc, hcid⟩ := hfk x hx
        have : x.camp_id = newCampId := congrArg Prod.fst hkey
        exact hfresh c hc (hcid.trans this)
  | edit_camp b s u campId name mode s' hu h =>
      rcases update_camp_ok h with rfl
      refine ⟨?_, hunm, huna⟩
      intro m hm
      obtain ⟨c, hc, hcid⟩ := hfk m hm
      have hmap : (replaceFirst (fun c => c.id == campId)
          (fun c => { c with name := name, member_approval_mode := mode })
          s.camps).map Camp.id = s.camps.map Camp.id := by
        rw [replaceFirst_map_eq]
        intro x _
        rfl
      have : m.camp_id ∈ (s.camps.map Camp.id) :=
        List.mem_map.mpr ⟨c, hc, hcid⟩
      rw [← hmap] at this
      rcases List.mem_map.mp this with ⟨c', hc', hcid'⟩
      exact ⟨c', hc', hcid'⟩
  | ask_membership b s u campId now s' hu h =>
      obtain ⟨⟨c, hc⟩, hnone, rfl⟩ := request_membership_ok h
      refine ⟨?_, ?_, huna⟩
      · intro m hm
        rcases List.mem_append.mp hm with h1 | h1
        · exact hfk m h1
        · rcases List.mem_singleton.mp h1 with rfl
          refine ⟨c, List.mem_of_find?_eq_some hc, ?_⟩
          simpa using List.find?_some hc
      · show ((s.camp_members ++ [_]).map memberKey).Nodup
        rw [List.map_append, List.map_singleton, nodup_append_singleton]
        refine ⟨hunm, ?_⟩
        intro hin
        rcases List.mem_map.mp hin with ⟨x, hx, hkey⟩
        have h1 : x.camp_id = campId := congrArg Prod.fst hkey
        have h2 : x.user_id = u.id := congrArg Prod.snd hkey
        have := List.find?_eq_none.mp hnone x hx
        exact this (by simp [h1, h2])
  | ok_member b s u campId userId now s' hu h =>
      obtain ⟨m0, hm0, hp, rfl⟩ := approve_member_ok h
      refine ⟨?_, ?_, huna⟩
      · intro m hm
        rcases mem_replaceFirst hm with h1 | ⟨x, hx, hpx, rfl⟩
        · exact hfk m h1
        · exact hfk x hx
      · show ((replaceFirst _ _ s.camp_members).map memberKey).Nodup
        rw [replaceFirst_map_eq]
        · exact hunm
        · intro x _
          rfl
  | no_member b s u campId userId s' hu h =>
      obtain ⟨m0, hm0, hp, rfl⟩ := reject_member_ok h
      refine ⟨?_, ?_, huna⟩
      · intro m hm
        rcases mem_replaceFirst hm with h1 | ⟨x, hx, hpx, rfl⟩
        · exact hfk m h1
        · exact hfk x hx
      · show ((replaceFirst _ _ s.camp_members).map memberKey).Nodup
        rw [replaceFirst_map_eq]
        · exact hunm
        · intro x _
          rfl
  | raise_member b s u campId userId s' hu h =>
      obtain ⟨m0, hm0, ha, hg, rfl⟩ := promote_member_ok h
      refine ⟨?_, ?_, huna⟩
      · intro m hm
        rcases mem_replaceFirst hm with h1 | ⟨x, hx, hpx, rfl⟩
        · exact hfk m h1
        · exact hfk x hx
      · show ((replaceFirst _ _ s.camp_members).map memberKey).Nodup
        rw [replaceFirst_map_eq]
        · exact hunm
        · intro x _
          rfl
  | lower_manager b s u campId userId s' hu h =>
      obtain ⟨camp, m0, hc, hm0, hg, hn, rfl⟩ := demote_manager_ok h
      refine ⟨?_, ?_, huna⟩
      · intro m hm
        rcases mem_replaceFirst hm with h1 | ⟨x, hx, hpx, rfl⟩
        · exact hfk m h1
        · exact hfk x hx
      · show ((replaceFirst _ _ s.camp_members).map memberKey).Nodup
        rw [replaceFirst_map_eq]
        · exact hunm
        · intro x _
          rfl
  | remove_own_account s u s' hu h =>
      rcases delete_own_account_ok h with rfl
      refine ⟨?_, ?_, huna⟩
      · intro m hm
        exact hfk m (List.mem_of_mem_filter hm)
      · show (((s.camp_members.filter _).map memberKey)).Nodup
        exact ((List.filter_sublist _).map memberKey).nodup hunm
  | make_event b s u newEventId title s' hu hfresh h =>
      obtain ⟨-, rfl⟩ := create_event_ok h
      exact ⟨hfk, hunm, huna⟩
  | ok_event b s u eventId s' hu h =>
      obtain ⟨-, -, rfl⟩ := approve_event_ok h
      exact ⟨hfk, hunm, huna⟩
  | no_event b s u eventId s' hu h =>
      obtain ⟨-, -, rfl⟩ := reject_event_ok h
      exact ⟨hfk, hunm, huna⟩
  | drop_event b s u eventId s' hu h =>
      obtain ⟨-, rfl⟩ := cancel_event_ok h
      exact ⟨hfk, hunm, huna⟩
  | admin_event_status b s u eventId body s' hu h =>
      obtain ⟨-, -, raw, hbody, hval, rfl⟩ := change_event_status_ok h
      exact ⟨hfk, hunm, huna⟩
  | ask_event b s u campId eventId now s' hu h =>
      obtain ⟨-, -, hnone, rfl⟩ := request_event_ok h
      refine ⟨hfk, hunm, ?_⟩
      show ((s.camp_event_associations ++ [_]).map assocKey).Nodup
      rw [List.map_append, List.map_singleton, nodup_append_singleton]
      refine ⟨huna, ?_⟩
      intro hin
      rcases List.mem_map.mp hin with ⟨x, hx, hkey⟩
      have h1 : x.camp_id = campId := congrArg Prod.fst hkey
      have h2 : x.event_id = eventId := congrArg Prod.snd hkey
      have := List.find?_eq_none.mp hnone x hx
      exact this (by simp [h1, h2])
  | ok_camp b s u eventId campId now s' hu h =>
      obtain ⟨e0, a0, he0, hp0, ha0, hst0, rfl⟩ := approve_camp_ok h
      refine ⟨hfk, hunm, ?_⟩
      show ((replaceFirst _ _ s.camp_event_associations).map assocKey).Nodup
      rw [replaceFirst_map_eq]
      · exact huna
      · intro x _
        rfl
  | no_camp b s u eventId campId s' hu h =>
      obtain ⟨e0, a0, he0, hp0, ha0, hst0, rfl⟩ := reject_camp_ok h
      refine ⟨hfk, hunm, ?_⟩
      show ((replaceFirst _ _ s.camp_event_associations).map assocKey).Nodup
      rw [replaceFirst_map_eq]
      · exact huna
      · intro x _
        rfl
  | admin_revoke b s u campId eventId s' hu h =>
      obtain ⟨a0, ha0, hst0, rfl⟩ := revoke_association_ok h
      refine ⟨hfk, hunm, ?_⟩
      show ((replaceFirst _ _ s.camp_event_associations).map assocKey).Nodup
      rw [replaceFirst_map_eq]
      · exact huna
      · intro x _
        rfl
  | admin_unreject b s u campId eventId s' hu h =>
      obtain ⟨a0, ha0, hst0, rfl⟩ := cancel_association_rejection_ok h
      refine ⟨hfk, hunm, ?_⟩
      show ((replaceFirst _ _ s.camp_event_associations).map assocKey).Nodup
      rw [replaceFirst_map_eq]
      · exact huna
      · intro x _
        rfl

theorem managerInv_preserved {s s' : DBState}
    (hs : Step false s s') (hinv : managerInv s) : managerInv s' := by
  cases hs with
  | register b s newUserId hfresh =>
      exact hinv
  | update_role b s u userId new_role s' hu h =>
      obtain ⟨l, rfl⟩ := update_user_role_ok h
      exact hinv
  | make_camp b s u newCampId name mode now hu hfresh =>
      intro c hc
      rcases List.mem_append.mp hc with h1 | h1
      · obtain ⟨m, hm, hmc, hms, hmr⟩ := hinv c h1
        exact ⟨m, List.mem_append.mpr (Or.inl hm), hmc, hms, hmr⟩
      · rcases List.mem_singleton.mp h1 with rfl
        exact ⟨_, List.mem_append.mpr (Or.inr (List.mem_singleton_self _)),
          rfl, rfl, rfl⟩
  | edit_camp b s u campId name mode s' hu h =>
      rcases update_camp_ok h with rfl
      intro c hc
      rcases mem_replaceFirst hc with h1 | ⟨c0, hc0, hpc0, rfl⟩
      · exact hinv c h1
      · obtain ⟨m, hm, hmc, hms, hmr⟩ := hinv c0 hc0
        exact ⟨m, hm, hmc, hms, hmr⟩
  | ask_membership b s u campId now s' hu h =>
      obtain ⟨-, -, rfl⟩ := request_membership_ok h
      intro c hc
      obtain ⟨m, hm, hmc, hms, hmr⟩ := hinv c hc
      exact ⟨m, List.mem_append.mpr (Or.inl hm), hmc, hms, hmr⟩
  | ok_member b s u campId userId now s' hu h =>
      obtain ⟨m0, hm0, hp, rfl⟩ := approve_member_ok h
      intro c hc
      obtain ⟨m, hm, hmc, hms, hmr⟩ := hinv c hc
      obtain ⟨l₁, l₂, hsplit, hl₁, hpa, hrep⟩ := replaceFirst_split _ hm0
      rw [hrep]
      rw [hsplit] at hm
      rcases List.mem_append.mp hm with h1 | h1
      · exact ⟨m, List.mem_append.mpr (Or.inl h1), hmc, hms, hmr⟩
      · rcases List.mem_cons.mp h1 with rfl | h2
        · refine ⟨_, List.mem_append.mpr (Or.inr (List.mem_cons_self _ _)),
            hmc, rfl, hmr⟩
        · exact ⟨m, List.mem_append.mpr (Or.inr (List.mem_cons_of_mem _ h2)),
            hmc, hms, hmr⟩
  | no_member b s u campId userId s' hu h =>
      obtain ⟨m0, hm0, hp, rfl⟩ := reject_member_ok h
      intro c hc
      obtain ⟨m, hm, hmc, hms, hmr⟩ := hinv c hc
      obtain ⟨l₁, l₂, hsplit, hl₁, hpa, hrep⟩ := replaceFirst_split _ hm0
      rw [hrep]
      rw [hsplit] at hm
      rcases List.mem_append.mp hm with h1 | h1
      · exact ⟨m, List.mem_append.mpr (Or.inl h1), hmc, hms, hmr⟩
      · rcases List.mem_cons.mp h1 with rfl | h2
        · exfalso
          simp only [CampMember.is_pending] at hp
          rw [hms] at hp
          exact absurd (by simpa using hp) (by decide)
        · exact ⟨m, List.mem_append.mpr (Or.inr (List.mem_cons_of_mem _ h2)),
            hmc, hms, hmr⟩
  | raise_member b s u campId userId s' hu h =>
      obtain ⟨m0, hm0, ha, hg, rfl⟩ := promote_member_ok h
      intro c hc
      obtain ⟨m, hm, hmc, hms, hmr⟩ := hinv c hc
      obtain ⟨l₁, l₂, hsplit, hl₁, hpa, hrep⟩ := replaceFirst_split _ hm0
      rw [hrep]
      rw [hsplit] at hm
      rcases List.mem_append.mp hm with h1 | h1
      · exact ⟨m, List.mem_append.mpr (Or.inl h1), hmc, hms, hmr⟩
      · rcases List.mem_cons.mp h1 with rfl | h2
        · refine ⟨_, List.mem_append.mpr (Or.inr (List.mem_cons_self _ _)),
            hmc, hms, rfl⟩
        · exact ⟨m, List.mem_append.mpr (Or.inr (List.mem_cons_of_mem _ h2)),
            hmc, hms, hmr⟩
  | lower_manager b s u campId userId s' hu h =>
      obtain ⟨camp, m0, hcamp, hm0, hg, hn, rfl⟩ := demote_manager_ok h
      intro c hc
      have hcampid : camp.id = campId := by
        simpa using List.find?_some hcamp
      obtain ⟨l₁, l₂, hsplit, hl₁, hpa, hrep⟩ := replaceFirst_split _ hm0
      rw [hrep]
      by_cases hcid : c.id = campId
      · -- the demoted camp: use the second approved manager
        have hP : 2 ≤ (List.filter (fun m =>
            m.camp_id == camp.id &&
            m.status == AssociationStatus.APPROVED &&
            m.role == CampMemberRole.MANAGER) (l₁ ++ m0 :: l₂)).length := by
          rw [← hsplit]
          exact hn
        rw [List.filter_append, List.filter_cons, List.length_append] at hP
        have hone : 1 ≤ (List.filter (fun m =>
              m.camp_id == camp.id &&
              m.status == AssociationStatus.APPROVED &&
              m.role == CampMemberRole.MANAGER) l₁).length +
            (List.filter (fun m =>
              m.camp_id == camp.id &&
              m.status == AssociationStatus.APPROVED &&
              m.role == CampMemberRole.MANAGER) l₂).length := by
          split at hP
          · simp only [List.length_cons] at hP
            omega
          · omega
        have hex : ∃ y, y ∈ (List.filter (fun m =>
              m.camp_id == camp.id &&
              m.status == AssociationStatus.APPROVED &&
              m.role == CampMemberRole.MANAGER) l₁) ∨
            y ∈ (List.filter (fun m =>
              m.camp_id == camp.id &&
              m.status == AssociationStatus.APPROVED &&
              m.role == CampMemberRole.MANAGER) l₂) := by
          rcases Nat.lt_or_ge 0 (List.filter (fun m =>
              m.camp_id == camp.id &&
              m.status == AssociationStatus.APPROVED &&
              m.role == CampMemberRole.MANAGER) l₁).length with hpos | hz
          · obtain ⟨y, hy⟩ := List.exists_mem_of_length_pos hpos
            exact ⟨y, Or.inl hy⟩
          · have hpos : 0 < (List.filter (fun m =>
                m.camp_id == camp.id &&
                m.status == AssociationStatus.APPROVED &&
                m.role == CampMemberRole.MANAGER) l₂).length := by omega
            obtain ⟨y, hy⟩ := List.exists_mem_of_length_pos hpos
            exact ⟨y, Or.inr hy⟩
        obtain ⟨y, hy⟩ := hex
        have hymem : y ∈ l₁ ++ ({ m0 with role := CampMemberRole.MEMBER } :: l₂) ∧
            (y.camp_id == camp.id &&
             y.status == AssociationStatus.APPROVED &&
             y.role == CampMemberRole.MANAGER) = true := by
          rcases hy with hy | hy
          · obtain ⟨hym, hyp⟩ := List.mem_filter.mp hy
            exact ⟨List.mem_append.mpr (Or.inl hym), hyp⟩
          · obtain ⟨hym, hyp⟩ := List.mem_filter.mp hy
            exact ⟨List.mem_append.mpr (Or.inr (List.mem_cons_of_mem _ hym)), hyp⟩
        obtain ⟨hym, hyp⟩ := hymem
        simp only [Bool.and_eq_true, beq_iff_eq] at hyp
        exact ⟨y, hym, by rw [hyp.1.1, hcampid, hcid], hyp.1.2, hyp.2⟩
      · -- other camps keep their previous witness
        obtain ⟨m, hm, hmc, hms, hmr⟩ := hinv c hc
        rw [hsplit] at hm
        rcases List.mem_append.mp hm with h1 | h1
        · exact ⟨m, List.mem_append.mpr (Or.inl h1), hmc, hms, hmr⟩
        · rcases List.mem_cons.mp h1 with rfl | h2
          · exfalso
            have : m.camp_id = campId := by
              have := List.find?_some hm0
              simpa using (Bool.and_eq_true ..).mp this |>.1
            exact hcid (hmc ▸ this)
          · exact ⟨m, List.mem_append.mpr (Or.inr (List.mem_cons_of_mem _ h2)),
              hmc, hms, hmr⟩
  | make_event b s u newEventId title s' hu hfresh h =>
      obtain ⟨-, rfl⟩ := create_event_ok h
      exact hinv
  | ok_event b s u eventId s' hu h =>
      obtain ⟨-, -, rfl⟩ := approve_event_ok h
      exact hinv
  | no_event b s u eventId s' hu h =>
      obtain ⟨-, -, rfl⟩ := reject_event_ok h
      exact hinv
  | drop_event b s u eventId s' hu h =>
      obtain ⟨-, rfl⟩ := cancel_event_ok h
      exact hinv
  | admin_event_status b s u eventId body s' hu h =>
      obtain ⟨-, -, raw, hbody, hval, rfl⟩ := change_event_status_ok h
      exact hinv
  | ask_event b s u campId eventId now s' hu h =>
      obtain ⟨-, -, -, rfl⟩ := request_event_ok h
      exact hinv
  | ok_camp b s u eventId campId now s' hu h =>
      obtain ⟨e0, a0, he0, hp0, ha0, hst0, rfl⟩ := approve_camp_ok h
      exact hinv
  | no_camp b s u eventId campId s' hu h =>
      obtain ⟨e0, a0, he0, hp0, ha0, hst0, rfl⟩ := reject_camp_ok h
      exact hinv
  | admin_revoke b s u campId eventId s' hu h =>
      obtain ⟨a0, ha0, hst0, rfl⟩ := revoke_association_ok h
      exact hinv
  | admin_unreject b s u campId eventId s' hu h =>
      obtain ⟨a0, ha0, hst0, rfl⟩ := cancel_association_rejection_ok h
      exact hinv

/-- After updating the first `p`-match, it is still the first `p`-match
    (provided `f` keeps `p` true on it). -/
theorem find?_replaceFirst_self {α : Type} {p : α → Bool} {l : List α} {a : α}
    (f : α → α) (h : l.find? p = some a) (hf : p (f a) = true) :
    (replaceFirst p f l).find? p = some (f a) := by
  obtain ⟨l₁, l₂, hsplit, hl₁, hpa, hrep⟩ := replaceFirst_split f h
  rw [hrep, List.find?_append]
  have h1 : l₁.find? p = none :=
    List.find?_eq_none.mpr (fun x hx => by simp [hl₁ x hx])
  rw [h1, List.find?_cons_of_pos _ hf]
  rfl

/-- Elements other than the replaced first match survive an update. -/
theorem mem_replaceFirst_of_ne {α : Type} {p : α → Bool} {l : List α} {a x : α}
    (f : α → α) (h : l.find? p = some a) (hx : x ∈ l) (hne : x ≠ a) :
    x ∈ replaceFirst p f l := by
  obtain ⟨l₁, l₂, hsplit, hl₁, hpa, hrep⟩ := replaceFirst_split f h
  rw [hrep]
  rw [hsplit] at hx
  rcases List.mem_append.mp hx with h1 | h1
  · exact List.mem_append.mpr (Or.inl h1)
  · rcases List.mem_cons.mp h1 with rfl | h2
    · exact absurd rfl hne
    · exact List.mem_append.mpr (Or.inr (List.mem_cons_of_mem _ h2))

theorem listIndex_none_iff (x : String) (l : List String) :
    listIndex x l = none ↔ x ∉ l := by
  induction l with
  | nil => simp [listIndex]
  | cons y ys ih =>
    by_cases hy : y = x
    · simp [listIndex, hy]
    · simp only [listIndex, beq_iff_eq, if_neg hy]
      constructor
      · intro hmap
        have hnone : listIndex x ys = none := by
          cases hli : listIndex x ys with
          | none => rfl
          | some i => rw [hli] at hmap; simp at hmap
        intro hmem
        rcases List.mem_cons.mp hmem with rfl | hmem'
        · exact hy rfl
        · exact (ih.mp hnone) hmem'
      · intro hmem
        have hx : x ∉ ys := fun h' => hmem (List.mem_cons_of_mem _ h')
        rw [ih.mpr hx]
        rfl

theorem listIndex_of_mem (x : String) (l : List String) (h : x ∈ l) :
    listIndex x l = some (l.indexOf x) := by
  induction l with
  | nil => simp at h
  | cons y ys ih =>
    by_cases hy : y = x
    · subst hy
      simp [listIndex, List.indexOf_cons_self]
    · have h' : x ∈ ys := by
        rcases List.mem_cons.mp h with rfl | h'
        · exact absurd rfl hy
        · exact h'
      have hne : x ≠ y := fun hxy => hy hxy.symm
      simp [listIndex, hy, ih h', List.indexOf, List.findIdx_cons,
        show (y == x) = false from by simp [hy]]

/-- All reachable states satisfy the status-enumeration invariant. -/
theorem reachable_statusInv {b : Bool} {s : DBState} (h : Reachable b s) :
    statusInv s := by
  induction h with
  | start =>
      refine ⟨?_, ?_, ?_⟩ <;> intro x hx <;> exact absurd hx (by simp [DBState.init])
  | next s s' h hs ih => exact statusInv_preserved hs ih

/-- All reachable states satisfy the foreign-key and pair-uniqueness
    invariants. -/
theorem reachable_fk_unique {b : Bool} {s : DBState} (h : Reachable b s) :
    memberCampFk s ∧ uniqueInv s := by
  induction h with
  | start =>
      refine ⟨?_, ?_, ?_⟩
      · intro m hm
        exact absurd hm (by simp [DBState.init])
      · simp [DBState.init]
      · simp [DBState.init]
  | next s s' h hs ih => exact fk_unique_preserved hs ih.1 ih.2

/-! ### Claim theorems. -/

/-- Claim C7: `has_role_or_higher(r)` returns true exactly when both the
    stored role and `r` are members of the hierarchy
    [global admin, site admin, event manager, camp manager, member] and
    the index of the stored role is at most the index of `r`; and for an
    authenticated user the `require_role_or_higher` decorator grants
    access exactly under this condition (403 otherwise). -/
theorem C7_role_hierarchy :
    (∀ (u : User) (r : String),
      u.has_role_or_higher r = true ↔
        (u.role ∈ UserRole.get_role_hierarchy ∧
         r ∈ UserRole.get_role_hierarchy ∧
         UserRole.get_role_hierarchy.indexOf u.role ≤
           UserRole.get_role_hierarchy.indexOf r)) ∧
    (∀ (r : String) (u : User),
      require_role_or_higher r true u = AccessDecision.granted ↔
        u.has_role_or_higher r = true) := by
  constructor
  · intro u r
    constructor
    · intro h
      unfold User.has_role_or_higher at h
      cases hu : listIndex u.role UserRole.get_role_hierarchy with
      | none =>
          rw [hu] at h
          cases hr : listIndex r UserRole.get_role_hierarchy <;>
            rw [hr] at h <;> simp at h
      | some i =>
          cases hr : listIndex r UserRole.get_role_hierarchy with
          | none => rw [hu, hr] at h; simp at h
          | some j =>
              rw [hu, hr] at h
              have hij : i ≤ j := by simpa using h
              have hmu : u.role ∈ UserRole.get_role_hierarchy := by
                by_contra hmem
                rw [(listIndex_none_iff _ _).mpr hmem] at hu
                cases hu
              have hmr : r ∈ UserRole.get_role_hierarchy := by
                by_contra hmem
                rw [(listIndex_none_iff _ _).mpr hmem] at hr
                cases hr
              have hiu : UserRole.get_role_hierarchy.indexOf u.role = i := by
                rw [listIndex_of_mem _ _ hmu] at hu
                injection hu
              have hir : UserRole.get_role_hierarchy.indexOf r = j := by
                rw [listIndex_of_mem _ _ hmr] at hr
                injection hr
              exact ⟨hmu, hmr, by rw [hiu, hir]; exact hij⟩
    · rintro ⟨hmu, hmr, hle⟩
      unfold User.has_role_or_higher
      rw [listIndex_of_mem _ _ hmu, listIndex_of_mem _ _ hmr]
      simpa using hle
  · intro r u
    constructor
    · intro hg
      by_contra hrole
      have hfalse : u.has_role_or_higher r = false :=
        Bool.not_eq_true _ ▸ hrole
      simp [require_role_or_higher, hfalse] at hg
    · intro hrole
      simp [require_role_or_higher, hrole]

/-- Claim C8: a successful `create_camp` inserts the camp immediately
    (it appears in the camps table at once, and a `Camp` row carries no
    status column, so there is no approval step) and inserts exactly one
    `CampMember` row for the new camp: the creator, with status approved,
    role manager, and both `requested_at` and `approved_at` set. -/
theorem C8_create_camp (s : DBState) (u : User) (newCampId : Nat)
    (name mode : String) (now : Nat)
    (hfresh : ∀ m ∈ s.camp_members, m.camp_id ≠ newCampId) :
    (create_camp s u newCampId name mode now).camps =
      s.camps ++ [{ id := newCampId, name := name,
                    member_approval_mode := mode, creator_id := u.id }] ∧
    (create_camp s u newCampId name mode now).camp_members.filter
        (fun m => m.camp_id == newCampId) =
      [{ camp_id := newCampId, user_id := u.id,
         status := AssociationStatus.APPROVED, role := CampMemberRole.MANAGER,
         requested_at := now, approved_at := some now }] := by
  refine ⟨rfl, ?_⟩
  show (s.camp_members ++ [_]).filter _ = _
  rw [List.filter_append]
  have h1 : s.camp_members.filter (fun m => m.camp_id == newCampId) = [] := by
    rw [List.filter_eq_nil_iff]
    intro m hm
    simpa using hfresh m hm
  rw [h1]
  simp

/-- Claim C8 witness: a concrete creation on the empty database. -/
theorem C8_create_camp_witness :
    (create_camp (register_user DBState.init 1) ⟨1, UserRole.MEMBER⟩ 1 "Alpha"
        MemberApprovalMode.MANAGER_ONLY 0).camps =
      (register_user DBState.init 1).camps ++
        [{ id := 1, name := "Alpha",
           member_approval_mode := MemberApprovalMode.MANAGER_ONLY,
           creator_id := 1 }] ∧
    (create_camp (register_user DBState.init 1) ⟨1, UserRole.MEMBER⟩ 1 "Alpha"
        MemberApprovalMode.MANAGER_ONLY 0).camp_members.filter
        (fun m => m.camp_id == 1) =
      [{ camp_id := 1, user_id := 1,
         status := AssociationStatus.APPROVED, role := CampMemberRole.MANAGER,
         requested_at := 0, approved_at := some 0 }] :=
  C8_create_camp (register_user DBState.init 1) ⟨1, UserRole.MEMBER⟩ 1 "Alpha"
    MemberApprovalMode.MANAGER_ONLY 0 (by decide)

/-- Claim C9: the membership test that `can_user_approve_members` uses in
    `all_members` mode is weaker than the one used in `manager_only`
    mode: a camp manager is in particular an approved member, so whoever
    may approve under `manager_only` may also approve (for the same
    membership rows) under `all_members`. -/
theorem C9_approval_mode_monotone :
    (∀ (s : DBState) (c : Camp) (userId : Nat),
      c.is_user_manager s userId = true → c.is_user_member s userId = true) ∧
    (∀ (s : DBState) (c : Camp) (userId : Nat),
      c.member_approval_mode = MemberApprovalMode.MANAGER_ONLY →
      c.can_user_approve_members s userId = true →
      ({ c with member_approval_mode := MemberApprovalMode.ALL_MEMBERS } :
        Camp).can_user_approve_members s userId = true) := by
  have hmono : ∀ (s : DBState) (c : Camp) (userId : Nat),
      c.is_user_manager s userId = true → c.is_user_member s userId = true := by
    intro s c userId h
    unfold Camp.is_user_manager at h
    unfold Camp.is_user_member
    rw [List.find?_isSome] at h ⊢
    obtain ⟨m, hm, hp⟩ := h
    refine ⟨m, hm, ?_⟩
    simp only [Bool.and_eq_true] at hp ⊢
    exact ⟨⟨hp.1.1.1, hp.1.1.2⟩, hp.1.2⟩
  refine ⟨hmono, ?_⟩
  intro s c userId hmode happrove
  unfold Camp.can_user_approve_members at happrove ⊢
  rw [hmode] at happrove
  simp only [beq_self_eq_true, if_pos] at happrove
  have hneq : (MemberApprovalMode.ALL_MEMBERS ==
      MemberApprovalMode.MANAGER_ONLY) = false := by decide
  simp only [hneq, Bool.false_eq_true, if_false]
  have hmgr : Camp.is_user_manager
      { c with member_approval_mode := MemberApprovalMode.ALL_MEMBERS } s userId = true := by
    unfold Camp.is_user_manager at happrove ⊢
    exact happrove
  exact hmono s _ userId hmgr

/-- Claim C9 witness: a concrete one-camp database where the creator is
    an approved manager. -/
theorem C9_approval_mode_monotone_witness :
    (Camp.is_user_manager ⟨1, "Alpha", MemberApprovalMode.MANAGER_ONLY, 1⟩
        (create_camp (register_user DBState.init 1) ⟨1, UserRole.MEMBER⟩ 1 "Alpha"
          MemberApprovalMode.MANAGER_ONLY 0) 1 = true →
      Camp.is_user_member ⟨1, "Alpha", MemberApprovalMode.MANAGER_ONLY, 1⟩
        (create_camp (register_user DBState.init 1) ⟨1, UserRole.MEMBER⟩ 1 "Alpha"
          MemberApprovalMode.MANAGER_ONLY 0) 1 = true) ∧
    Camp.is_user_member ⟨1, "Alpha", MemberApprovalMode.MANAGER_ONLY, 1⟩
      (create_camp (register_user DBState.init 1) ⟨1, UserRole.MEMBER⟩ 1 "Alpha"
        MemberApprovalMode.MANAGER_ONLY 0) 1 = true :=
  ⟨C9_approval_mode_monotone.1 _ _ 1,
   C9_approval_mode_monotone.1 _ ⟨1, "Alpha", MemberApprovalMode.MANAGER_ONLY, 1⟩ 1
     (by decide)⟩

/-- Claim C4: `approve_event` moves an event only pending→approved,
    `reject_event` only pending→rejected, `cancel_event` only
    approved→cancelled; whenever the current status is not the required
    starting status the handler reports an error, and an error leaves
    the state (hence the status) unchanged. -/
theorem C4_event_status_transitions :
    (∀ (s : DBState) (u : User) (eventId : Nat) (s' : DBState),
      approve_event s u eventId = Except.ok s' →
      ∃ e, eventLookup s eventId = some e ∧ e.status = EventStatus.PENDING ∧
        eventLookup s' eventId = some { e with status := EventStatus.APPROVED } ∧
        ∀ x ∈ s.events, x.id ≠ eventId → x ∈ s'.events) ∧
    (∀ (s : DBState) (u : User) (eventId : Nat) (e : Event),
      eventLookup s eventId = some e → e.status ≠ EventStatus.PENDING →
      ∃ msg, approve_event s u eventId = Except.error msg) ∧
    (∀ (s : DBState) (u : User) (eventId : Nat) (s' : DBState),
      reject_event s u eventId = Except.ok s' →
      ∃ e, eventLookup s eventId = some e ∧ e.status = EventStatus.PENDING ∧
        eventLookup s' eventId = some { e with status := EventStatus.REJECTED } ∧
        ∀ x ∈ s.events, x.id ≠ eventId → x ∈ s'.events) ∧
    (∀ (s : DBState) (u : User) (eventId : Nat) (e : Event),
      eventLookup s eventId = some e → e.status ≠ EventStatus.PENDING →
      ∃ msg, reject_event s u eventId = Except.error msg) ∧
    (∀ (s : DBState) (u : User) (eventId : Nat) (s' : DBState),
      cancel_event s u eventId = Except.ok s' →
      ∃ e, eventLookup s eventId = some e ∧ e.status = EventStatus.APPROVED ∧
        eventLookup s' eventId = some { e with status := EventStatus.CANCELLED } ∧
        ∀ x ∈ s.events, x.id ≠ eventId → x ∈ s'.events) ∧
    (∀ (s : DBState) (u : User) (eventId : Nat) (e : Event),
      eventLookup s eventId = some e → e.status ≠ EventStatus.APPROVED →
      ∃ msg, cancel_event s u eventId = Except.error msg) := by
  have survive : ∀ (l : List Event) (f : Event → Event) (e : Event)
      (eventId : Nat),
      l.find? (fun x => x.id == eventId) = some e →
      ∀ x ∈ l, x.id ≠ eventId →
        x ∈ replaceFirst (fun x => x.id == eventId) f l := by
    intro l f e eventId he x hx hne
    refine mem_replaceFirst_of_ne f he hx ?_
    intro hxe
    have : e.id = eventId := by simpa using List.find?_some he
    exact hne (hxe ▸ this)
  refine ⟨?_, ?_, ?_, ?_, ?_, ?_⟩
  · intro s u eventId s' h
    obtain ⟨-, ⟨e, he, hpend⟩, rfl⟩ := approve_event_ok h
    refine ⟨e, he, hpend, ?_, fun x hx hne => survive _ _ _ _ he x hx hne⟩
    exact find?_replaceFirst_self _ he (by simpa using List.find?_some he)
  · intro s u eventId e he hne
    cases hres : approve_event s u eventId with
    | ok s' =>
        exfalso
        obtain ⟨-, ⟨e', he', hpend'⟩, -⟩ := approve_event_ok hres
        rw [he] at he'
        injection he' with he''
        exact hne (he'' ▸ hpend')
    | error msg => exact ⟨msg, rfl⟩
  · intro s u eventId s' h
    obtain ⟨-, ⟨e, he, hpend⟩, rfl⟩ := reject_event_ok h
    refine ⟨e, he, hpend, ?_, fun x hx hne => survive _ _ _ _ he x hx hne⟩
    exact find?_replaceFirst_self _ he (by simpa using List.find?_some he)
  · intro s u eventId e he hne
    cases hres : reject_event s u eventId with
    | ok s' =>
        exfalso
        obtain ⟨-, ⟨e', he', hpend'⟩, -⟩ := reject_event_ok hres
        rw [he] at he'
        injection he' with he''
        exact hne (he'' ▸ hpend')
    | error msg => exact ⟨msg, rfl⟩
  · intro s u eventId s' h
    obtain ⟨⟨e, he, hcrea, happr⟩, rfl⟩ := cancel_event_ok h
    refine ⟨e, he, happr, ?_, fun x hx hne => survive _ _ _ _ he x hx hne⟩
    exact find?_replaceFirst_self _ he (by simpa using List.find?_some he)
  · intro s u eventId e he hne
    cases hres : cancel_event s u eventId with
    | ok s' =>
        exfalso
        obtain ⟨⟨e', he', hcrea', happr'⟩, -⟩ := cancel_event_ok hres
        rw [he] at he'
        injection he' with he''
        exact hne (he'' ▸ happr')
    | error msg => exact ⟨msg, rfl⟩

/-- Claim C4 witness: approving a concrete pending event succeeds and a
    concrete cancelled event cannot be approved. -/
theorem C4_event_status_transitions_witness :
    (∃ e, eventLookup ⟨[⟨3, UserRole.SITE_ADMIN⟩], [], [⟨20, "ev", EventStatus.PENDING, 3⟩], [], []⟩ 20 = some e ∧
      e.status = EventStatus.PENDING ∧
      eventLookup ((⟨[⟨3, UserRole.SITE_ADMIN⟩], [], [⟨20, "ev", EventStatus.PENDING, 3⟩], [], []⟩ : DBState).setEvents
        (replaceFirst (fun x => x.id == 20)
          (fun x => { x with status := EventStatus.APPROVED })
          [⟨20, "ev", EventStatus.PENDING, 3⟩])) 20 =
        some { e with status := EventStatus.APPROVED } ∧
      ∀ x ∈ [(⟨20, "ev", EventStatus.PENDING, 3⟩ : Event)], x.id ≠ 20 →
        x ∈ ((⟨[⟨3, UserRole.SITE_ADMIN⟩], [], [⟨20, "ev", EventStatus.PENDING, 3⟩], [], []⟩ : DBState).setEvents
          (replaceFirst (fun x => x.id == 20)
            (fun x => { x with status := EventStatus.APPROVED })
            [⟨20, "ev", EventStatus.PENDING, 3⟩])).events) ∧
    (∃ msg, approve_event ⟨[⟨3, UserRole.SITE_ADMIN⟩], [], [⟨20, "ev", EventStatus.CANCELLED, 3⟩], [], []⟩
        ⟨3, UserRole.SITE_ADMIN⟩ 20 = Except.error msg) :=
  ⟨C4_event_status_transitions.1 _ ⟨3, UserRole.SITE_ADMIN⟩ 20 _ rfl,
   C4_event_status_transitions.2.1 _ ⟨3, UserRole.SITE_ADMIN⟩ 20
     ⟨20, "ev", EventStatus.CANCELLED, 3⟩ (by decide) (by decide)⟩

/-- Claim C5: `approve_camp` turns a camp-event association approved and
    stamps `approved_at`, `reject_camp` turns it rejected, in each case
    only when the association is pending and the caller is the event
    creator or a site admin or higher; in every other case an error is
    reported and (the state being returned unchanged) the association is
    untouched. -/
theorem C5_association_approval :
    (∀ (s : DBState) (u : User) (eventId campId now : Nat) (s' : DBState),
      approve_camp s u eventId campId now = Except.ok s' →
      ∃ event association,
        eventLookup s eventId = some event ∧
        (event.creator_id = u.id ∨ u.is_site_admin_or_higher = true) ∧
        assocLookup s campId eventId = some association ∧
        association.status = AssociationStatus.PENDING ∧
        assocLookup s' campId eventId =
          some { association with status := AssociationStatus.APPROVED,
                                  approved_at := some now } ∧
        s'.camps = s.camps ∧ s'.events = s.events ∧
        s'.camp_members = s.camp_members ∧
        ∀ x ∈ s.camp_event_associations,
          ¬(x.camp_id = campId ∧ x.event_id = eventId) →
          x ∈ s'.camp_event_associations) ∧
    (∀ (s : DBState) (u : User) (eventId campId now : Nat),
      (¬ ∃ event association,
        eventLookup s eventId = some event ∧
        (event.creator_id = u.id ∨ u.is_site_admin_or_higher = true) ∧
        assocLookup s campId eventId = some association ∧
        association.status = AssociationStatus.PENDING) →
      ∃ msg, approve_camp s u eventId campId now = Except.error msg) ∧
    (∀ (s : DBState) (u : User) (eventId campId : Nat) (s' : DBState),
      reject_camp s u eventId campId = Except.ok s' →
      ∃ event association,
        eventLookup s eventId = some event ∧
        (event.creator_id = u.id ∨ u.is_site_admin_or_higher = true) ∧
        assocLookup s campId eventId = some association ∧
        association.status = AssociationStatus.PENDING ∧
        assocLookup s' campId eventId =
          some { association with status := AssociationStatus.REJECTED } ∧
        s'.camps = s.camps ∧ s'.events = s.events ∧
        s'.camp_members = s.camp_members ∧
        ∀ x ∈ s.camp_event_associations,
          ¬(x.camp_id = campId ∧ x.event_id = eventId) →
          x ∈ s'.camp_event_associations) ∧
    (∀ (s : DBState) (u : User) (eventId campId : Nat),
      (¬ ∃ event association,
        eventLookup s eventId = some event ∧
        (event.creator_id = u.id ∨ u.is_site_admin_or_higher = true) ∧
        assocLookup s campId eventId = some association ∧
        association.status = AssociationStatus.PENDING) →
      ∃ msg, reject_camp s u eventId campId = Except.error msg) := by
  have survive : ∀ (l : List CampEventAssociation)
      (f : CampEventAssociation → CampEventAssociation)
      (a : CampEventAssociation) (campId eventId : Nat),
      l.find? (fun x => x.camp_id == campId && x.event_id == eventId) = some a →
      ∀ x ∈ l, ¬(x.camp_id = campId ∧ x.event_id = eventId) →
        x ∈ replaceFirst (fun x => x.camp_id == campId && x.event_id == eventId) f l := by
    intro l f a campId eventId ha x hx hne
    refine mem_replaceFirst_of_ne f ha hx ?_
    rintro rfl
    have := List.find?_some ha
    simp only [Bool.and_eq_true, beq_iff_eq] at this
    exact hne this
  refine ⟨?_, ?_, ?_, ?_⟩
  · intro s u eventId campId now s' h
    obtain ⟨event, association, he, hperm, ha, hpend, rfl⟩ := approve_camp_ok h
    refine ⟨event, association, he, hperm, ha, hpend, ?_, rfl, rfl, rfl,
      fun x hx hne => survive _ _ _ _ _ ha x hx hne⟩
    exact find?_replaceFirst_self _ ha (by simpa using List.find?_some ha)
  · intro s u eventId campId now hno
    cases hres : approve_camp s u eventId campId now with
    | ok s' =>
        exfalso
        obtain ⟨event, association, he, hperm, ha, hpend, -⟩ := approve_camp_ok hres
        exact hno ⟨event, association, he, hperm, ha, hpend⟩
    | error msg => exact ⟨msg, rfl⟩
  · intro s u eventId campId s' h
    obtain ⟨event, association, he, hperm, ha, hpend, rfl⟩ := reject_camp_ok h
    refine ⟨event, association, he, hperm, ha, hpend, ?_, rfl, rfl, rfl,
      fun x hx hne => survive _ _ _ _ _ ha x hx hne⟩
    exact find?_replaceFirst_self _ ha (by simpa using List.find?_some ha)
  · intro s u eventId campId hno
    cases hres : reject_camp s u eventId campId with
    | ok s' =>
        exfalso
        obtain ⟨event, association, he, hperm, ha, hpend, -⟩ := reject_camp_ok hres
        exact hno ⟨event, association, he, hperm, ha, hpend⟩
    | error msg => exact ⟨msg, rfl⟩

/-- Claim C6: with exactly one approved manager in the camp, demoting
    that manager fails with the last-manager error and changes nothing;
    with at least two approved managers, demoting an approved manager
    sets that membership's role to member while its status stays
    approved. -/
theorem C6_demote_manager :
    (∀ (s : DBState) (u : User) (campId userId : Nat) (camp : Camp)
       (usr : User) (m : CampMember),
      campLookup s campId = some camp →
      userLookup s userId = some usr →
      (u.is_site_admin_or_higher = true ∨ u.is_camp_manager s campId = true) →
      memberLookup s campId userId = some m →
      m.is_manager = true →
      (s.camp_members.filter (fun x => x.camp_id == camp.id &&
        x.status == AssociationStatus.APPROVED &&
        x.role == CampMemberRole.MANAGER)).length = 1 →
      demote_manager s u campId userId =
        Except.error "Cannot demote the last camp manager. Promote another member first.") ∧
    (∀ (s : DBState) (u : User) (campId userId : Nat) (camp : Camp)
       (usr : User) (m : CampMember),
      campLookup s campId = some camp →
      userLookup s userId = some usr →
      (u.is_site_admin_or_higher = true ∨ u.is_camp_manager s campId = true) →
      memberLookup s campId userId = some m →
      m.is_manager = true →
      2 ≤ (s.camp_members.filter (fun x => x.camp_id == camp.id &&
        x.status == AssociationStatus.APPROVED &&
        x.role == CampMemberRole.MANAGER)).length →
      ∃ s', demote_manager s u campId userId = Except.ok s' ∧
        memberLookup s' campId userId =
          some { m with role := CampMemberRole.MEMBER }) ∧
    (∀ (s : DBState) (u : User) (campId userId : Nat) (m : CampMember)
       (s' : DBState),
      demote_manager s u campId userId = Except.ok s' →
      memberLookup s campId userId = some m →
      m.status = AssociationStatus.APPROVED ∧
      memberLookup s' campId userId =
        some { m with role := CampMemberRole.MEMBER }) := by
  refine ⟨?_, ?_, ?_⟩
  · intro s u campId userId camp usr m hcamp huser hperm hm hmgr hcount
    have hpermb : (!u.is_site_admin_or_higher && !u.is_camp_manager s campId) = false := by
      rcases hperm with h | h <;> simp [h]
    have hmgrb : (!m.is_manager) = false := by simp [hmgr]
    unfold demote_manager
    simp only [hcamp, huser, hpermb, hm, hmgrb, hcount, Bool.false_eq_true,
      if_false]
    norm_num
  · intro s u campId userId camp usr m hcamp huser hperm hm hmgr hcount
    have hpermb : (!u.is_site_admin_or_higher && !u.is_camp_manager s campId) = false := by
      rcases hperm with h | h <;> simp [h]
    have hmgrb : (!m.is_manager) = false := by simp [hmgr]
    have hcount' : ¬((s.camp_members.filter (fun x => x.camp_id == camp.id &&
        x.status == AssociationStatus.APPROVED &&
        x.role == CampMemberRole.MANAGER)).length ≤ 1) := by omega
    refine ⟨s.setMembers (replaceFirst
        (fun x => x.camp_id == campId && x.user_id == userId)
        (fun x => { x with role := CampMemberRole.MEMBER }) s.camp_members),
      ?_, ?_⟩
    · unfold demote_manager
      simp only [hcamp, huser, hpermb, hm, hmgrb, Bool.false_eq_true, if_false,
        if_neg hcount']
    · exact find?_replaceFirst_self _ hm (by simpa using List.find?_some hm)
  · intro s u campId userId m s' h hm
    obtain ⟨camp, m0, hcamp, hm0, hmgr0, hcnt, rfl⟩ := demote_manager_ok h
    rw [hm] at hm0
    injection hm0 with hm0
    subst hm0
    constructor
    · simp only [CampMember.is_manager, CampMember.is_approved,
        Bool.and_eq_true, beq_iff_eq] at hmgr0
      exact hmgr0.2
    · exact find?_replaceFirst_self _ hm (by simpa using List.find?_some hm)

/-- Claim C6 witness: in a two-user camp, demoting the sole manager
    fails with the last-manager error; after promoting the second
    member, demoting them succeeds and leaves an approved member. -/
theorem C6_demote_manager_witness :
    demote_manager
        ⟨[⟨1, UserRole.MEMBER⟩, ⟨2, UserRole.MEMBER⟩],
         [⟨10, "Alpha", MemberApprovalMode.MANAGER_ONLY, 1⟩], [],
         [⟨10, 1, AssociationStatus.APPROVED, CampMemberRole.MANAGER, 0, some 0⟩,
          ⟨10, 2, AssociationStatus.APPROVED, CampMemberRole.MEMBER, 1, some 2⟩], []⟩
        ⟨1, UserRole.MEMBER⟩ 10 1 =
      Except.error "Cannot demote the last camp manager. Promote another member first." ∧
    (CampMember.status ⟨10, 2, AssociationStatus.APPROVED, CampMemberRole.MANAGER, 1, some 2⟩ =
        AssociationStatus.APPROVED ∧
     memberLookup
        (DBState.setMembers
          ⟨[⟨1, UserRole.MEMBER⟩, ⟨2, UserRole.MEMBER⟩],
           [⟨10, "Alpha", MemberApprovalMode.MANAGER_ONLY, 1⟩], [],
           [⟨10, 1, AssociationStatus.APPROVED, CampMemberRole.MANAGER, 0, some 0⟩,
            ⟨10, 2, AssociationStatus.APPROVED, CampMemberRole.MANAGER, 1, some 2⟩], []⟩
          (replaceFirst (fun x => x.camp_id == 10 && x.user_id == 2)
            (fun x => { x with role := CampMemberRole.MEMBER })
            [⟨10, 1, AssociationStatus.APPROVED, CampMemberRole.MANAGER, 0, some 0⟩,
             ⟨10, 2, AssociationStatus.APPROVED, CampMemberRole.MANAGER, 1, some 2⟩]))
        10 2 =
      some { (⟨10, 2, AssociationStatus.APPROVED, CampMemberRole.MANAGER, 1, some 2⟩ : CampMember) with
               role := CampMemberRole.MEMBER }) :=
  ⟨C6_demote_manager.1
      ⟨[⟨1, UserRole.MEMBER⟩, ⟨2, UserRole.MEMBER⟩],
       [⟨10, "Alpha", MemberApprovalMode.MANAGER_ONLY, 1⟩], [],
       [⟨10, 1, AssociationStatus.APPROVED, CampMemberRole.MANAGER, 0, some 0⟩,
        ⟨10, 2, AssociationStatus.APPROVED, CampMemberRole.MEMBER, 1, some 2⟩], []⟩
      ⟨1, UserRole.MEMBER⟩ 10 1
      ⟨10, "Alpha", MemberApprovalMode.MANAGER_ONLY, 1⟩ ⟨1, UserRole.MEMBER⟩
      ⟨10, 1, AssociationStatus.APPROVED, CampMemberRole.MANAGER, 0, some 0⟩
      (by decide) (by decide) (Or.inr (by decide)) (by decide) (by decide) (by decide),
   C6_demote_manager.2.2
      ⟨[⟨1, UserRole.MEMBER⟩, ⟨2, UserRole.MEMBER⟩],
       [⟨10, "Alpha", MemberApprovalMode.MANAGER_ONLY, 1⟩], [],
       [⟨10, 1, AssociationStatus.APPROVED, CampMemberRole.MANAGER, 0, some 0⟩,
        ⟨10, 2, AssociationStatus.APPROVED, CampMemberRole.MANAGER, 1, some 2⟩], []⟩
      ⟨1, UserRole.MEMBER⟩ 10 2
      ⟨10, 2, AssociationStatus.APPROVED, CampMemberRole.MANAGER, 1, some 2⟩ _
      rfl (by decide)⟩

/-- Claim C10: a rejected camp membership is terminal at the membership
    interface: no committed handler run changes the record while it
    exists (it can only disappear wholesale, by account deletion), and a
    renewed `request_membership` by the rejected user fails with the
    was-rejected error and changes nothing. -/
theorem C10_rejected_membership_terminal :
    (∀ (b : Bool) (s s' : DBState) (campId userId : Nat) (m : CampMember),
      Step b s s' →
      memberLookup s campId userId = some m →
      m.status = AssociationStatus.REJECTED →
      memberLookup s' campId userId = some m ∨
        memberLookup s' campId userId = none) ∧
    (∀ (s : DBState) (u : User) (campId now : Nat) (c : Camp) (m : CampMember),
      campLookup s campId = some c →
      memberLookup s campId u.id = some m →
      m.status = AssociationStatus.REJECTED →
      request_membership s u campId now =
        Except.error "Your previous request to join this camp was rejected.") := by
  have upd_preserve : ∀ (s : DBState) (campId userId campId' userId' : Nat)
      (m m0 : CampMember) (f : CampMember → CampMember),
      (∀ x, (f x).camp_id = x.camp_id) → (∀ x, (f x).user_id = x.user_id) →
      memberLookup s campId userId = some m →
      memberLookup s campId' userId' = some m0 →
      ¬(campId' = campId ∧ userId' = userId) →
      (replaceFirst (fun x => x.camp_id == campId' && x.user_id == userId') f
        s.camp_members).find? (fun x => x.camp_id == campId && x.user_id == userId) =
        some m := by
    intro s campId userId campId' userId' m m0 f hfc hfu hm hm0 hkey
    rw [find?_replaceFirst_disjoint]
    · exact hm
    · intro x
      rw [hfc x, hfu x]
    · intro x hpx
      cases hqx : (x.camp_id == campId && x.user_id == userId) with
      | false => rfl
      | true =>
          exfalso
          simp only [Bool.and_eq_true, beq_iff_eq] at hpx hqx
          exact hkey ⟨hpx.1 ▸ hqx.1, hpx.2 ▸ hqx.2⟩
  constructor
  · intro b s s' campId userId m hs hm hrej
    cases hs with
    | register b s newUserId hfresh => exact Or.inl hm
    | update_role b s u userId' new_role s' hu h =>
        obtain ⟨l, rfl⟩ := update_user_role_ok h
        exact Or.inl hm
    | make_camp b s u newCampId name mode now hu hfresh =>
        left
        have hm' : List.find? (fun x => x.camp_id == campId && x.user_id == userId)
            s.camp_members = some m := hm
        show (s.camp_members ++ [_]).find? _ = some m
        rw [List.find?_append, hm']
        rfl
    | edit_camp b s u campId' name mode s' hu h =>
        rcases update_camp_ok h with rfl
        exact Or.inl hm
    | ask_membership b s u campId' now s' hu h =>
        obtain ⟨-, hnone, rfl⟩ := request_membership_ok h
        left
        have hm' : List.find? (fun x => x.camp_id == campId && x.user_id == userId)
            s.camp_members = some m := hm
        show (s.camp_members ++ [_]).find? _ = some m
        rw [List.find?_append, hm']
        rfl
    | ok_member b s u campId' userId' now s' hu h =>
        obtain ⟨m0, hm0, hp, rfl⟩ := approve_member_ok h
        left
        by_cases hkey : campId' = campId ∧ userId' = userId
        · exfalso
          obtain ⟨rfl, rfl⟩ := hkey
          rw [hm] at hm0
          injection hm0 with hm0
          subst hm0
          simp only [CampMember.is_pending, hrej] at hp
          exact absurd (by simpa using hp) (by decide)
        · exact upd_preserve s campId userId campId' userId' m m0 _
            (fun x => rfl) (fun x => rfl) hm hm0 hkey
    | no_member b s u campId' userId' s' hu h =>
        obtain ⟨m0, hm0, hp, rfl⟩ := reject_member_ok h
        left
        by_cases hkey : campId' = campId ∧ userId' = userId
        · obtain ⟨rfl, rfl⟩ := hkey
          rw [hm] at hm0
          injection hm0 with hm0
          subst hm0
          exfalso
          simp only [CampMember.is_pending, hrej] at hp
          exact absurd (by simpa using hp) (by decide)
        · exact upd_preserve s campId userId campId' userId' m m0 _
            (fun x => rfl) (fun x => rfl) hm hm0 hkey
    | raise_member b s u campId' userId' s' hu h =>
        obtain ⟨m0, hm0, ha, hg, rfl⟩ := promote_member_ok h
        left
        by_cases hkey : campId' = campId ∧ userId' = userId
        · obtain ⟨rfl, rfl⟩ := hkey
          rw [hm] at hm0
          injection hm0 with hm0
          subst hm0
          exfalso
          simp only [CampMember.is_approved, hrej] at ha
          exact absurd (by simpa using ha) (by decide)
        · exact upd_preserve s campId userId campId' userId' m m0 _
            (fun x => rfl) (fun x => rfl) hm hm0 hkey
    | lower_manager b s u campId' userId' s' hu h =>
        obtain ⟨camp, m0, hc, hm0, hg, hn, rfl⟩ := demote_manager_ok h
        left
        by_cases hkey : campId' = campId ∧ userId' = userId
        · obtain ⟨rfl, rfl⟩ := hkey
          rw [hm] at hm0
          injection hm0 with hm0
          subst hm0
          exfalso
          simp only [CampMember.is_manager, CampMember.is_approved, hrej,
            Bool.and_eq_true] at hg
          exact absurd (by simpa using hg.2) (by decide)
        · exact upd_preserve s campId userId campId' userId' m m0 _
            (fun x => rfl) (fun x => rfl) hm hm0 hkey
    | remove_own_account s u s' hu h =>
        rcases delete_own_account_ok h with rfl
        by_cases huid : u.id = userId
        · right
          subst huid
          show (s.camp_members.filter _).find? _ = none
          rw [List.find?_eq_none]
          intro x hx
          obtain ⟨-, hxu⟩ := List.mem_filter.mp hx
          intro hq
          simp only [Bool.and_eq_true, beq_iff_eq] at hq
          simp [hq.2] at hxu
        · left
          show (s.camp_members.filter _).find? _ = some m
          rw [find?_filter_comm]
          · exact hm
          · intro x hq
            simp only [Bool.and_eq_true, beq_iff_eq] at hq
            have hne : userId ≠ u.id := fun hh => huid hh.symm
            simp [hq.2, hne]
    | make_event b s u newEventId title s' hu hfresh h =>
        obtain ⟨-, rfl⟩ := create_event_ok h
        exact Or.inl hm
    | ok_event b s u eventId s' hu h =>
        obtain ⟨-, -, rfl⟩ := approve_event_ok h
        exact Or.inl hm
    | no_event b s u eventId s' hu h =>
        obtain ⟨-, -, rfl⟩ := reject_event_ok h
        exact Or.inl hm
    | drop_event b s u eventId s' hu h =>
        obtain ⟨-, rfl⟩ := cancel_event_ok h
        exact Or.inl hm
    | admin_event_status b s u eventId body s' hu h =>
        obtain ⟨-, -, raw, hbody, hval, rfl⟩ := change_event_status_ok h
        exact Or.inl hm
    | ask_event b s u campId' eventId now s' hu h =>
        obtain ⟨-, -, -, rfl⟩ := request_event_ok h
        exact Or.inl hm
    | ok_camp b s u eventId campId' now s' hu h =>
        obtain ⟨e0, a0, he0, hp0, ha0, hst0, rfl⟩ := approve_camp_ok h
        exact Or.inl hm
    | no_camp b s u eventId campId' s' hu h =>
        obtain ⟨e0, a0, he0, hp0, ha0, hst0, rfl⟩ := reject_camp_ok h
        exact Or.inl hm
    | admin_revoke b s u campId' eventId s' hu h =>
        obtain ⟨a0, ha0, hst0, rfl⟩ := revoke_association_ok h
        exact Or.inl hm
    | admin_unreject b s u campId' eventId s' hu h =>
        obtain ⟨a0, ha0, hst0, rfl⟩ := cancel_association_rejection_ok h
        exact Or.inl hm
  · intro s u campId now c m hc hm hrej
    have happ : m.is_approved = false := by
      simp [CampMember.is_approved, hrej]
      decide
    have hpend : m.is_pending = false := by
      simp [CampMember.is_pending, hrej]
      decide
    unfold request_membership
    simp [hc, hm, happ, hpend]

/-- Claim C10 witness: a concrete rejected membership survives a
    concrete registration step unchanged, and the rejected user's new
    request fails with the was-rejected error. -/
theorem C10_rejected_membership_terminal_witness :
    (memberLookup
        (register_user
          ⟨[⟨1, UserRole.MEMBER⟩, ⟨2, UserRole.MEMBER⟩],
           [⟨10, "Alpha", MemberApprovalMode.MANAGER_ONLY, 1⟩], [],
           [⟨10, 1, AssociationStatus.APPROVED, CampMemberRole.MANAGER, 0, some 0⟩,
            ⟨10, 2, AssociationStatus.REJECTED, CampMemberRole.MEMBER, 1, none⟩], []⟩ 5)
        10 2 =
        some ⟨10, 2, AssociationStatus.REJECTED, CampMemberRole.MEMBER, 1, none⟩ ∨
      memberLookup
        (register_user
          ⟨[⟨1, UserRole.MEMBER⟩, ⟨2, UserRole.MEMBER⟩],
           [⟨10, "Alpha", MemberApprovalMode.MANAGER_ONLY, 1⟩], [],
           [⟨10, 1, AssociationStatus.APPROVED, CampMemberRole.MANAGER, 0, some 0⟩,
            ⟨10, 2, AssociationStatus.REJECTED, CampMemberRole.MEMBER, 1, none⟩], []⟩ 5)
        10 2 = none) ∧
    request_membership
        ⟨[⟨1, UserRole.MEMBER⟩, ⟨2, UserRole.MEMBER⟩],
         [⟨10, "Alpha", MemberApprovalMode.MANAGER_ONLY, 1⟩], [],
         [⟨10, 1, AssociationStatus.APPROVED, CampMemberRole.MANAGER, 0, some 0⟩,
          ⟨10, 2, AssociationStatus.REJECTED, CampMemberRole.MEMBER, 1, none⟩], []⟩
        ⟨2, UserRole.MEMBER⟩ 10 7 =
      Except.error "Your previous request to join this camp was rejected." :=
  ⟨C10_rejected_membership_terminal.1 true _ _ 10 2
      ⟨10, 2, AssociationStatus.REJECTED, CampMemberRole.MEMBER, 1, none⟩
      (Step.register true _ 5 (by decide))
      (by decide) (by decide),
   C10_rejected_membership_terminal.2 _ ⟨2, UserRole.MEMBER⟩ 10 7
      ⟨10, "Alpha", MemberApprovalMode.MANAGER_ONLY, 1⟩
      ⟨10, 2, AssociationStatus.REJECTED, CampMemberRole.MEMBER, 1, none⟩
      (by decide) (by decide) (by decide)⟩

/-- Claim C2: in every reachable state every `Event.status` is one of
    pending/approved/rejected/cancelled and every `CampMember.status`
    and `CampEventAssociation.status` is one of
    pending/approved/rejected; and `change_event_status` reports an
    error (leaving the state, hence the event, unchanged) whenever the
    requested status string is not one of the four `EventStatus`
    values. -/
theorem C2_status_enum_values :
    (∀ (b : Bool) (s : DBState), Reachable b s → statusInv s) ∧
    (∀ (s : DBState) (u : User) (eventId : Nat) (raw : String),
      pyStrip raw ∉ EventStatus.values →
      ∃ msg, change_event_status s u eventId (some raw) = Except.error msg) := by
  constructor
  · intro b s h
    exact reachable_statusInv h
  · intro s u eventId raw hraw
    cases hres : change_event_status s u eventId (some raw) with
    | ok s' =>
        exfalso
        obtain ⟨-, -, raw', hraw', hval, -⟩ := change_event_status_ok hres
        injection hraw' with hraw'
        exact hraw (hraw' ▸ hval)
    | error msg => exact ⟨msg, rfl⟩

/-- Claim C2 witness: the empty database satisfies the invariant, and a
    concrete bogus status string is refused. -/
theorem C2_status_enum_values_witness :
    statusInv DBState.init ∧
    ∃ msg, change_event_status
        ⟨[⟨3, UserRole.SITE_ADMIN⟩], [], [⟨20, "ev", EventStatus.PENDING, 3⟩], [], []⟩
        ⟨3, UserRole.SITE_ADMIN⟩ 20 (some "bogus") = Except.error msg :=
  ⟨C2_status_enum_values.1 true DBState.init (Reachable.start true),
   C2_status_enum_values.2 _ ⟨3, UserRole.SITE_ADMIN⟩ 20 "bogus" (by decide)⟩

/-- Claim C3: in every reachable state the (camp, user) key of
    `CampMember` rows and the (camp, event) key of
    `CampEventAssociation` rows are unique; `request_membership` and
    `request_event` insert a row exactly when no row for the pair
    exists, and report an error (state unchanged) when one does. -/
theorem C3_pair_uniqueness :
    (∀ (b : Bool) (s : DBState), Reachable b s → uniqueInv s) ∧
    (∀ (s : DBState) (u : User) (campId now : Nat) (c : Camp),
      campLookup s campId = some c →
      memberLookup s campId u.id = none →
      request_membership s u campId now = Except.ok (s.setMembers
        (s.camp_members ++
          [{ camp_id := campId, user_id := u.id,
             status := AssociationStatus.PENDING, role := CampMemberRole.MEMBER,
             requested_at := now, approved_at := none }]))) ∧
    (∀ (s : DBState) (u : User) (campId now : Nat) (m : CampMember),
      memberLookup s campId u.id = some m →
      ∃ msg, request_membership s u campId now = Except.error msg) ∧
    (∀ (s : DBState) (u : User) (campId eventId now : Nat)
       (a : CampEventAssociation),
      assocLookup s campId eventId = some a →
      ∃ msg, request_event s u campId eventId now = Except.error msg) := by
  refine ⟨?_, ?_, ?_, ?_⟩
  · intro b s h
    exact (reachable_fk_unique h).2
  · intro s u campId now c hc hnone
    unfold request_membership
    simp [hc, hnone, DBState.setMembers]
  · intro s u campId now m hm
    cases hres : request_membership s u campId now with
    | ok s' =>
        exfalso
        obtain ⟨-, hnone, -⟩ := request_membership_ok hres
        rw [hm] at hnone
        cases hnone
    | error msg => exact ⟨msg, rfl⟩
  · intro s u campId eventId now a ha
    cases hres : request_event s u campId eventId now with
    | ok s' =>
        exfalso
        obtain ⟨-, -, hnone, -⟩ := request_event_ok hres
        rw [ha] at hnone
        cases hnone
    | error msg => exact ⟨msg, rfl⟩

/-- Claim C3 witness: the empty database has unique keys; a concrete
    fresh request succeeds and a concrete repeated request fails. -/
theorem C3_pair_uniqueness_witness :
    uniqueInv DBState.init ∧
    (∃ msg, request_membership
        ⟨[⟨1, UserRole.MEMBER⟩],
         [⟨10, "Alpha", MemberApprovalMode.MANAGER_ONLY, 1⟩], [],
         [⟨10, 1, AssociationStatus.APPROVED, CampMemberRole.MANAGER, 0, some 0⟩], []⟩
        ⟨1, UserRole.MEMBER⟩ 10 5 = Except.error msg) :=
  ⟨C3_pair_uniqueness.1 true DBState.init (Reachable.start true),
   C3_pair_uniqueness.2.2.1 _ ⟨1, UserRole.MEMBER⟩ 10 5
     ⟨10, 1, AssociationStatus.APPROVED, CampMemberRole.MANAGER, 0, some 0⟩
     (by decide)⟩

/-- Claim C1 counterexample: the claim quantifies over every operation,
    including `delete_own_account`.  From the empty database: register
    users 1 and 2; user 1 creates camp 10 (becoming its approved
    manager); user 2 requests membership, is approved and promoted to
    manager; user 1 then demotes themselves (two managers, so allowed),
    leaving user 2 as the sole approved manager.  User 2 created no
    camp and no event, so their `delete_own_account` run hits no
    IntegrityError and commits: it is a step of the full system, and
    afterwards camp 10 still exists with no approved manager at all.
    The listed operation does not preserve the invariant. -/
theorem C1_counterexample :
    Reachable true
        ⟨[⟨1, UserRole.MEMBER⟩, ⟨2, UserRole.MEMBER⟩],
         [⟨10, "Alpha", MemberApprovalMode.MANAGER_ONLY, 1⟩], [],
         [⟨10, 1, AssociationStatus.APPROVED, CampMemberRole.MEMBER, 0, some 0⟩,
          ⟨10, 2, AssociationStatus.APPROVED, CampMemberRole.MANAGER, 1, some 2⟩],
         []⟩ ∧
    managerInv
        ⟨[⟨1, UserRole.MEMBER⟩, ⟨2, UserRole.MEMBER⟩],
         [⟨10, "Alpha", MemberApprovalMode.MANAGER_ONLY, 1⟩], [],
         [⟨10, 1, AssociationStatus.APPROVED, CampMemberRole.MEMBER, 0, some 0⟩,
          ⟨10, 2, AssociationStatus.APPROVED, CampMemberRole.MANAGER, 1, some 2⟩],
         []⟩ ∧
    Step true
        ⟨[⟨1, UserRole.MEMBER⟩, ⟨2, UserRole.MEMBER⟩],
         [⟨10, "Alpha", MemberApprovalMode.MANAGER_ONLY, 1⟩], [],
         [⟨10, 1, AssociationStatus.APPROVED, CampMemberRole.MEMBER, 0, some 0⟩,
          ⟨10, 2, AssociationStatus.APPROVED, CampMemberRole.MANAGER, 1, some 2⟩],
         []⟩
        ⟨[⟨1, UserRole.MEMBER⟩],
         [⟨10, "Alpha", MemberApprovalMode.MANAGER_ONLY, 1⟩], [],
         [⟨10, 1, AssociationStatus.APPROVED, CampMemberRole.MEMBER, 0, some 0⟩],
         []⟩ ∧
    ¬ managerInv
        ⟨[⟨1, UserRole.MEMBER⟩],
         [⟨10, "Alpha", MemberApprovalMode.MANAGER_ONLY, 1⟩], [],
         [⟨10, 1, AssociationStatus.APPROVED, CampMemberRole.MEMBER, 0, some 0⟩],
         []⟩ := by
  refine ⟨?_, ?_, ?_, ?_⟩
  · have r1 : Reachable true
        ⟨[⟨1, UserRole.MEMBER⟩], [], [], [], []⟩ :=
      Reachable.next _ _ _ (Reachable.start true)
        (Step.register true DBState.init 1 (by decide))
    have r2 : Reachable true
        ⟨[⟨1, UserRole.MEMBER⟩, ⟨2, UserRole.MEMBER⟩], [], [], [], []⟩ :=
      Reachable.next _ _ _ r1
        (Step.register true ⟨[⟨1, UserRole.MEMBER⟩], [], [], [], []⟩ 2
          (by decide))
    have r3 : Reachable true
        ⟨[⟨1, UserRole.MEMBER⟩, ⟨2, UserRole.MEMBER⟩],
         [⟨10, "Alpha", MemberApprovalMode.MANAGER_ONLY, 1⟩], [],
         [⟨10, 1, AssociationStatus.APPROVED, CampMemberRole.MANAGER, 0, some 0⟩],
         []⟩ :=
      Reachable.next _ _ _ r2
        (Step.make_camp true
          ⟨[⟨1, UserRole.MEMBER⟩, ⟨2, UserRole.MEMBER⟩], [], [], [], []⟩
          ⟨1, UserRole.MEMBER⟩ 10 "Alpha" MemberApprovalMode.MANAGER_ONLY 0
          (by decide) (by decide))
    have r4 : Reachable true
        ⟨[⟨1, UserRole.MEMBER⟩, ⟨2, UserRole.MEMBER⟩],
         [⟨10, "Alpha", MemberApprovalMode.MANAGER_ONLY, 1⟩], [],
         [⟨10, 1, AssociationStatus.APPROVED, CampMemberRole.MANAGER, 0, some 0⟩,
          ⟨10, 2, AssociationStatus.PENDING, CampMemberRole.MEMBER, 1, none⟩],
         []⟩ :=
      Reachable.next _ _ _ r3
        (Step.ask_membership true
          ⟨[⟨1, UserRole.MEMBER⟩, ⟨2, UserRole.MEMBER⟩],
           [⟨10, "Alpha", MemberApprovalMode.MANAGER_ONLY, 1⟩], [],
           [⟨10, 1, AssociationStatus.APPROVED, CampMemberRole.MANAGER, 0, some 0⟩],
           []⟩
          ⟨2, UserRole.MEMBER⟩ 10 1 _ (by decide) rfl)
    have r5 : Reachable true
        ⟨[⟨1, UserRole.MEMBER⟩, ⟨2, UserRole.MEMBER⟩],
         [⟨10, "Alpha", MemberApprovalMode.MANAGER_ONLY, 1⟩], [],
         [⟨10, 1, AssociationStatus.APPROVED, CampMemberRole.MANAGER, 0, some 0⟩,
          ⟨10, 2, AssociationStatus.APPROVED, CampMemberRole.MEMBER, 1, some 2⟩],
         []⟩ :=
      Reachable.next _ _ _ r4
        (Step.ok_member true
          ⟨[⟨1, UserRole.MEMBER⟩, ⟨2, UserRole.MEMBER⟩],
           [⟨10, "Alpha", MemberApprovalMode.MANAGER_ONLY, 1⟩], [],
           [⟨10, 1, AssociationStatus.APPROVED, CampMemberRole.MANAGER, 0, some 0⟩,
            ⟨10, 2, AssociationStatus.PENDING, CampMemberRole.MEMBER, 1, none⟩],
           []⟩
          ⟨1, UserRole.MEMBER⟩ 10 2 2 _ (by decide) rfl)
    have r6 : Reachable true
        ⟨[⟨1, UserRole.MEMBER⟩, ⟨2, UserRole.MEMBER⟩],
         [⟨10, "Alpha", MemberApprovalMode.MANAGER_ONLY, 1⟩], [],
         [⟨10, 1, AssociationStatus.APPROVED, CampMemberRole.MANAGER, 0, some 0⟩,
          ⟨10, 2, AssociationStatus.APPROVED, CampMemberRole.MANAGER, 1, some 2⟩],
         []⟩ :=
      Reachable.next _ _ _ r5
        (Step.raise_member true
          ⟨[⟨1, UserRole.MEMBER⟩, ⟨2, UserRole.MEMBER⟩],
           [⟨10, "Alpha", MemberApprovalMode.MANAGER_ONLY, 1⟩], [],
           [⟨10, 1, AssociationStatus.APPROVED, CampMemberRole.MANAGER, 0, some 0⟩,
            ⟨10, 2, AssociationStatus.APPROVED, CampMemberRole.MEMBER, 1, some 2⟩],
           []⟩
          ⟨1, UserRole.MEMBER⟩ 10 2 _ (by decide) rfl)
    exact Reachable.next _ _ _ r6
      (Step.lower_manager true
        ⟨[⟨1, UserRole.MEMBER⟩, ⟨2, UserRole.MEMBER⟩],
         [⟨10, "Alpha", MemberApprovalMode.MANAGER_ONLY, 1⟩], [],
         [⟨10, 1, AssociationStatus.APPROVED, CampMemberRole.MANAGER, 0, some 0⟩,
          ⟨10, 2, AssociationStatus.APPROVED, CampMemberRole.MANAGER, 1, some 2⟩],
         []⟩
        ⟨1, UserRole.MEMBER⟩ 10 1 _ (by decide) rfl)
  · unfold managerInv
    decide
  · exact Step.remove_own_account
      ⟨[⟨1, UserRole.MEMBER⟩, ⟨2, UserRole.MEMBER⟩],
       [⟨10, "Alpha", MemberApprovalMode.MANAGER_ONLY, 1⟩], [],
       [⟨10, 1, AssociationStatus.APPROVED, CampMemberRole.MEMBER, 0, some 0⟩,
        ⟨10, 2, AssociationStatus.APPROVED, CampMemberRole.MANAGER, 1, some 2⟩],
       []⟩
      ⟨2, UserRole.MEMBER⟩ _ (by decide) rfl
  · unfold managerInv
    decide

/-- Claim C1 (amended): in every state reachable using all operations
    except `delete_own_account`, every camp has at least one approved
    manager-role membership; `create_camp` establishes it and every
    delete-free operation preserves it.  (`delete_own_account` is the
    one exception, witnessed by the counterexample.) -/
theorem C1_manager_invariant_no_delete (s : DBState)
    (h : Reachable false s) : managerInv s := by
  induction h with
  | start =>
      intro c hc
      exact absurd hc (by simp [DBState.init])
  | next s s' h hs ih => exact managerInv_preserved hs ih

/-- Claim C1 witness: the amended invariant at a concrete delete-free
    reachable state (one user who created one camp). -/
theorem C1_manager_invariant_no_delete_witness :
    managerInv
      (create_camp (register_user DBState.init 1) ⟨1, UserRole.MEMBER⟩ 1
        "Alpha" MemberApprovalMode.MANAGER_ONLY 0) :=
  C1_manager_invariant_no_delete _
    (Reachable.next _ _ _
      (Reachable.next _ _ _ (Reachable.start false)
        (Step.register false DBState.init 1 (by decide)))
      (Step.make_camp false _ ⟨1, UserRole.MEMBER⟩ 1 "Alpha"
        MemberApprovalMode.MANAGER_ONLY 0 (by decide) (by decide)))

end Campersion
